import Mathlib

/-!
Verification development for the ASIC Gazette scraper
(source file mainGazzette2021M.py).

The development shallowly embeds the pure core of the scraper:
text cleaning, per-cell link extraction, dynamic column storage,
table resolution for a year, row extraction, dynamic header
generation and row normalization.  The page snapshot supplied by
the browser is modelled by explicit data structures: a Link has a
visible text and an optional href attribute; a Cell has a list of
links, a raw text, and a flag `ok` modelling whether reading the
cell's link elements succeeds (a transient access failure makes
the per-cell try/except in the source return empty lists); a
RRow has a flag recording whether the row contains th elements
(a header row) and its list of td cells; a Table has a visibility
flag and its rows.  Python dictionaries are modelled as
association lists with overwrite-on-existing-key insertion, and
the `all_columns_found` set as a duplicate-free list with
insert-if-absent.  Python `/` on counts is modelled as exact
division in ℚ.  `urljoin` from the standard library is an
external collaborator and is passed in as a function parameter.
-/

/-- Model of the text replacement of the literal substring
"&nbsp;" by a single space, scanning left to right without
overlap, as Python str.replace does. -/
def replaceNbspChars : List Char → List Char
  | '&' :: 'n' :: 'b' :: 's' :: 'p' :: ';' :: rest => ' ' :: replaceNbspChars rest
  | c :: rest => c :: replaceNbspChars rest
  | [] => []

/-- Split a character list at whitespace characters, keeping the
(possibly empty) chunks, as an auxiliary for Python str.split(). -/
def splitWsAux (cur : List Char) : List Char → List (List Char)
  | [] => [cur.reverse]
  | c :: rest =>
      if c.isWhitespace then cur.reverse :: splitWsAux [] rest
      else splitWsAux (c :: cur) rest

/-- Strip whitespace from both ends of a character list, as
Python str.strip(). -/
def trimChars (l : List Char) : List Char :=
  ((l.dropWhile Char.isWhitespace).reverse.dropWhile Char.isWhitespace).reverse

/-- Embedding of `_clean_text`: replace non-breaking spaces and
the literal "&nbsp;" by spaces, split on whitespace dropping
empty chunks, join with single spaces, and strip. -/
def clean_text (s : String) : String :=
  let replaced := replaceNbspChars (s.data.map (fun c => if c = ' ' then ' ' else c))
  let words := (splitWsAux [] replaced).filter (fun w => w ≠ [])
  String.mk (trimChars (List.intercalate [' '] words))

/-- Containment of a character in a string, modelling Python
`c in s`. -/
def strContains (s : String) (c : Char) : Bool :=
  s.data.contains c

/-- Python str.startswith. -/
def strStartsWith (s pat : String) : Bool :=
  pat.data.isPrefixOf s.data

/-- Python str.endswith. -/
def strEndsWith (s pat : String) : Bool :=
  pat.data.isSuffixOf s.data

/-- Python s[-n:]: the last n characters of a string (the whole
string when it is shorter). -/
def strTakeRight (s : String) (n : Nat) : String :=
  String.mk (s.data.drop (s.data.length - n))

/-- Decimal digits of a positive number, most significant first,
with explicit fuel to keep the recursion structural. -/
def natStrAux : Nat → Nat → List Char
  | 0, _ => []
  | _ + 1, 0 => []
  | f + 1, n + 1 => natStrAux f ((n + 1) / 10) ++ [Char.ofNat (48 + (n + 1) % 10)]

/-- Embedding of Python str() on a non-negative integer. -/
def natStr (n : Nat) : String :=
  if n = 0 then "0" else String.mk (natStrAux n n)

/-- Numeric value of a decimal digit character. -/
def chVal (c : Char) : Nat := c.toNat - 48

/-- Value of a digit string read most significant digit first. -/
def chainVal (l : List Char) : Nat :=
  l.foldl (fun a c => a * 10 + chVal c) 0

/-! ## Records and the column registry

A Python dict is an association list; assignment overwrites the
value of an existing key in place and appends a fresh key at the
end.  The `all_columns_found` set is a duplicate-free list with
insert-if-absent. -/

/-- A record: a mapping from column names to string values. -/
abbrev Record := List (String × String)

/-- First value stored under a key, Python `d[k]` or `d.get(k)`. -/
def dget : Record → String → Option String
  | [], _ => none
  | (k, v) :: rest, key => if k = key then some v else dget rest key

/-- Python dict assignment `d[k] = v`. -/
def dictInsert (r : Record) (k v : String) : Record :=
  if r.any (fun q => q.1 = k) then
    r.map (fun q => if q.1 = k then (k, v) else q)
  else r ++ [(k, v)]

/-- Python set.add on a set modelled as a duplicate-free list. -/
def setInsert (cols : List String) (k : String) : List String :=
  if k ∈ cols then cols else cols ++ [k]

/-! ## Page snapshot data model -/

/-- A rendered anchor element: visible text and optional href
attribute. -/
structure Link where
  text : String
  href : Option String
deriving DecidableEq

/-- A rendered td cell.  The flag `ok` records whether querying
the cell for its anchor elements succeeds; when it is false the
per-cell extraction raises and its try/except returns empty
lists, and the per-table scoring loop skips the table. -/
structure Cell where
  links : List Link
  text : String
  ok : Bool
deriving DecidableEq

/-- A rendered tr row: whether it contains th elements (a header
row) and its td cells. -/
structure RRow where
  hasTh : Bool
  cells : List Cell
deriving DecidableEq

/-- A rendered table: its visibility and its rows. -/
structure Table where
  displayed : Bool
  rows : List RRow
deriving DecidableEq

/-- Embedding of `_resolve_url`.  `urljoin` is the external
standard-library collaborator, passed in as a parameter; `base`
is the configured base url. -/
def resolve_url (urljoin : String → String → String) (base url : String) : String :=
  if url = "" then ""
  else if strStartsWith url "http" then url
  else urljoin base url

/-- Embedding of `_extract_multiple_links_data`: the titles and
urls lists extracted from one cell.  A cell whose link query
fails yields two empty lists (the caught exception); a cell with
no links yields its cleaned text as a sole title with empty url
when that text is non-empty; otherwise one pair per link, with
empty strings for missing text or href. -/
def extract_multiple_links_data (urljoin : String → String → String)
    (base : String) (cell : Cell) : List String × List String :=
  if cell.ok then
    if cell.links = [] then
      let t := clean_text cell.text
      if t ≠ "" then ([t], [""]) else ([], [])
    else
      (cell.links.map (fun l => clean_text l.text),
       cell.links.map (fun l =>
         match l.href with
         | none => ""
         | some u => if u = "" then "" else resolve_url urljoin base (String.mk (trimChars u.data))))
  else ([], [])

/-! ## Dynamic column storage (`_store_cell_data`) -/

/-- Title column name for the item at 0-based position i of a
multi-value cell: the base name for the first item, a numbered
variant for the later ones. -/
def tkey (pfx : String) (i : Nat) : String :=
  if i = 0 then pfx ++ "_title" else pfx ++ ("_title_" ++ natStr (i + 1))

/-- Url column name for the item at 0-based position i. -/
def ukey (pfx : String) (i : Nat) : String :=
  if i = 0 then pfx ++ "_url" else pfx ++ ("_url_" ++ natStr (i + 1))

/-- The zip loop of `_store_cell_data`: store the title/url pair
at position i and register both columns, then continue. -/
def store_pairs (pfx : String) : Nat → Record → List String →
    List (String × String) → Record × List String
  | _, r, cols, [] => (r, cols)
  | i, r, cols, (t, u) :: rest =>
    store_pairs pfx (i + 1)
      (dictInsert (dictInsert r (tkey pfx i) t) (ukey pfx i) u)
      (setInsert (setInsert cols (tkey pfx i)) (ukey pfx i))
      rest

/-- The trailing loop of `_store_cell_data`: store remaining urls
that have no corresponding title, starting at position i. -/
def store_rest_urls (pfx : String) : Nat → Record → List String →
    List String → Record × List String
  | _, r, cols, [] => (r, cols)
  | i, r, cols, u :: rest =>
    store_rest_urls pfx (i + 1)
      (dictInsert r (pfx ++ ("_url_" ++ natStr (i + 1))) u)
      (setInsert cols (pfx ++ ("_url_" ++ natStr (i + 1))))
      rest

/-- Embedding of `_store_cell_data`.  Takes and returns the
record under construction and the registry of all column names
found.  When both lists are empty the base pair is stored with
empty values; otherwise urls are padded with empty strings up to
the number of titles, the pairs are stored positionally, and any
urls beyond the titles are stored by the trailing loop. -/
def store_cell_data (result : Record) (cols : List String) (pfx : String)
    (titles urls : List String) : Record × List String :=
  if titles = [] ∧ urls = [] then
    (dictInsert (dictInsert result (pfx ++ "_title") "") (pfx ++ "_url") "",
     setInsert (setInsert cols (pfx ++ "_title")) (pfx ++ "_url"))
  else
    let urls2 := urls ++ List.replicate (titles.length - urls.length) ""
    let step1 := store_pairs pfx 0 result cols (titles.zip urls2)
    store_rest_urls pfx titles.length step1.1 step1.2 (urls2.drop titles.length)

/-! ## Normalizer (`_normalize_row_data`) -/

/-- Embedding of `_normalize_row_data`: build a fresh record
holding, for every header in order, the row's value under that
header or the empty string. -/
def normalize_row_data (row_data : Record) (headers : List String) : Record :=
  headers.foldl (fun acc h2 => dictInsert acc h2 ((dget row_data h2).getD "")) []

/-! ## Dynamic header generation (`_generate_dynamic_headers`) -/

/-- Python sorted() on a list of strings: lexicographic order on
code points. -/
def sortStr (l : List String) : List String :=
  l.insertionSort (· ≤ ·)

/-- Sorted ASIC Gazette columns. -/
def asicColumns (cols : List String) : List String :=
  sortStr (cols.filter (fun c => strStartsWith c "ASIC_Gazette"))

/-- Sorted Business Gazette columns. -/
def businessColumns (cols : List String) : List String :=
  sortStr (cols.filter (fun c => strStartsWith c "Business_Gazette"))

/-- Sorted Other Notes columns. -/
def otherNotesColumns (cols : List String) : List String :=
  sortStr (cols.filter (fun c => strStartsWith c "Other_Notes"))

/-- Sorted columns starting with Other but not Other Notes. -/
def otherOnlyColumns (cols : List String) : List String :=
  sortStr (cols.filter (fun c => strStartsWith c "Other" && ! strStartsWith c "Other_Notes"))

/-- Sorted Notes columns. -/
def notesColumns (cols : List String) : List String :=
  sortStr (cols.filter (fun c => strStartsWith c "Notes"))

/-- The ordered headers before the remaining-columns safety net. -/
def orderedHeadersPart (cols : List String) : List String :=
  ["Year", "Date"] ++ asicColumns cols ++ businessColumns cols
    ++ otherOnlyColumns cols ++ notesColumns cols ++ otherNotesColumns cols

/-- The safety net: sorted registered columns not already placed. -/
def remainingColumns (cols : List String) : List String :=
  sortStr (cols.filter (fun c => ! (orderedHeadersPart cols).contains c))

/-- Embedding of `_generate_dynamic_headers`. -/
def generate_dynamic_headers (cols : List String) : List String :=
  orderedHeadersPart cols ++ remainingColumns cols

/-! ## Row extraction (`_extract_row_data`) -/

/-- Embedding of `_extract_row_data`.  A row with fewer than 4
cells yields no record.  Cell 0 gives the date, cells 1 and 2 the
ASIC and Business Gazette groups; with exactly 4 cells, cell 3 is
stored as Other Notes, and with 5 or more cells, cell 3 is Other
and cell 4 is Notes, each after the text-overrides-first-title
rule.  Returns the optional record and the updated column
registry. -/
def extract_row_data (urljoin : String → String → String) (base : String)
    (cols : List String) (cells : List Cell) (year : String) :
    Option Record × List String :=
  match cells with
  | c0 :: c1 :: c2 :: c3 :: rest =>
    let r0 : Record := [("Year", year), ("Date", clean_text c0.text)]
    let cols0 := setInsert (setInsert cols "Year") "Date"
    let a := extract_multiple_links_data urljoin base c1
    let s1 := store_cell_data r0 cols0 "ASIC_Gazette" a.1 a.2
    let b := extract_multiple_links_data urljoin base c2
    let s2 := store_cell_data s1.1 s1.2 "Business_Gazette" b.1 b.2
    match rest with
    | [] =>
      let n := extract_multiple_links_data urljoin base c3
      let ntext := clean_text c3.text
      let nt := if ntext ≠ "" ∧ n.1 = [] then [ntext]
                else if ntext ≠ "" ∧ n.1 ≠ [] then ntext :: n.1.tail
                else n.1
      let s3 := store_cell_data s2.1 s2.2 "Other_Notes" nt n.2
      (some s3.1, s3.2)
    | c4 :: _ =>
      let o := extract_multiple_links_data urljoin base c3
      let otext := clean_text c3.text
      let ot := if otext ≠ "" ∧ o.1 = [] then [otext]
                else if otext ≠ "" ∧ o.1 ≠ [] then otext :: o.1.tail
                else o.1
      let s3 := store_cell_data s2.1 s2.2 "Other" ot o.2
      let n := extract_multiple_links_data urljoin base c4
      let ntext := clean_text c4.text
      let nt := if ntext ≠ "" ∧ n.1 = [] then [ntext]
                else if ntext ≠ "" ∧ n.1 ≠ [] then ntext :: n.1.tail
                else n.1
      let s4 := store_cell_data s3.1 s3.2 "Notes" nt n.2
      (some s4.1, s4.2)
  | _ => (none, cols)

/-- The record and registry state after the date and the two
gazette columns of a row have been processed. -/
def row_prefix_state (urljoin : String → String → String) (base : String)
    (cols : List String) (year : String) (c0 c1 c2 : Cell) : Record × List String :=
  let r0 : Record := [("Year", year), ("Date", clean_text c0.text)]
  let cols0 := setInsert (setInsert cols "Year") "Date"
  let a := extract_multiple_links_data urljoin base c1
  let s1 := store_cell_data r0 cols0 "ASIC_Gazette" a.1 a.2
  let b := extract_multiple_links_data urljoin base c2
  store_cell_data s1.1 s1.2 "Business_Gazette" b.1 b.2

/-! ## Table resolution (`_find_correct_table_for_year`) -/

/-- One link inside the scored columns: the running pair is
(matched, total); a link whose cleaned text is non-empty and
contains a slash counts toward the total, and toward the matched
count when the text ends with a slash and the year suffix. -/
def count_link (suffix : String) (acc : Nat × Nat) (l : Link) : Nat × Nat :=
  let t := clean_text l.text
  if t ≠ "" ∧ strContains t '/' = true then
    (if strEndsWith t ("/" ++ suffix) = true then (acc.1 + 1, acc.2 + 1)
     else (acc.1, acc.2 + 1))
  else acc

/-- Scan one cell's links; a cell whose link query fails raises,
which the per-table try/except turns into skipping the table. -/
def scan_cell (suffix : String) (c : Cell) (acc : Nat × Nat) : Option (Nat × Nat) :=
  if c.ok then some (c.links.foldl (count_link suffix) acc) else none

/-- Scan one data row: with at least 2 cells the cell at index 1
is scanned, and the cell at index 2 as well when present. -/
def scan_row (suffix : String) (acc : Nat × Nat) : RRow → Option (Nat × Nat)
  | ⟨_, _ :: c1 :: c2 :: _⟩ =>
    (scan_cell suffix c1 acc).bind (fun acc1 => scan_cell suffix c2 acc1)
  | ⟨_, [_, c1]⟩ =>
    (scan_cell suffix c1 acc).bind (fun acc1 => some acc1)
  | _ => some acc

/-- Score one candidate table over at most the first 10 rows
without th elements; none models an analysis error, after which
the table is skipped.  A table with no data rows scores (0, 0),
which never qualifies, matching the source's continue. -/
def score_table (suffix : String) (t : Table) : Option (Nat × Nat) :=
  ((t.rows.filter (fun r => ! r.hasTh)).take 10).foldlM (scan_row suffix) (0, 0)

/-- The qualification test: the match percentage, computed as
exact division, must exceed 70 with more than 5 links sampled. -/
def qualifiesB (m tot : Nat) : Bool :=
  let pct : ℚ := if tot > 0 then (m : ℚ) / (tot : ℚ) * 100 else 0
  decide (pct > 70 ∧ tot > 5)

/-- Whether a candidate table is selected by the scoring loop. -/
def table_qualifies (suffix : String) (t : Table) : Bool :=
  match score_table suffix t with
  | none => false
  | some sc => qualifiesB sc.1 sc.2

/-- The fixed fallback mapping from year to visible table index. -/
def year_to_table_index (year : String) : Option Nat :=
  if year = "2020" then some 0
  else if year = "2019" then some 1
  else if year = "2018" then some 3
  else if year = "2017" then some 4
  else if year = "2016" then some 5
  else if year = "2015" then some 6
  else if year = "2014" then some 7
  else if year = "2013" then some 8
  else if year = "2012" then some 9
  else if year = "2011" then some 10
  else none

/-- The candidate tables: those currently displayed. -/
def visible_tables (tables : List Table) : List Table :=
  tables.filter (fun t => t.displayed)

/-- Embedding of `_find_correct_table_for_year`, returning the
index of the chosen table in the visible-table sequence.  The
first visible candidate that qualifies wins; otherwise the fixed
ordinal fallback is consulted and its index returned when in
range, else the resolution fails. -/
def find_correct_table_for_year (tables : List Table) (year : String) : Option Nat :=
  let vis := visible_tables tables
  let suffix := strTakeRight year 2
  match vis.findIdx? (table_qualifies suffix) with
  | some i => some i
  | none =>
    match year_to_table_index year with
    | some i => if i < vis.length then some i else none
    | none => none

/-! ## Specification-side scoring, written from the spec's words -/

/-- The cleaned visible texts of the links inspected in one row:
those of the cell at index 1, then of the cell at index 2 when
the row has at least 3 cells; nothing for rows with fewer than
2 cells. -/
def specRowLinks : RRow → List String
  | ⟨_, _ :: c1 :: c2 :: _⟩ =>
    c1.links.map (fun l => clean_text l.text) ++ c2.links.map (fun l => clean_text l.text)
  | ⟨_, [_, c1]⟩ => c1.links.map (fun l => clean_text l.text)
  | _ => []

/-- All link texts inspected for one candidate: at most the first
10 non-header rows. -/
def specLinks (t : Table) : List String :=
  (((t.rows.filter (fun r => ! r.hasTh)).take 10).map specRowLinks).join

/-- Total links counted: texts containing a slash. -/
def specTotal (t : Table) : Nat :=
  (specLinks t).countP (fun s => strContains s '/')

/-- Matched links counted: texts ending with a slash followed by
the partition key's last two characters. -/
def specMatched (suffix : String) (t : Table) : Nat :=
  (specLinks t).countP (fun s => strEndsWith s ("/" ++ suffix))

/-- A candidate qualifies iff its match ratio exceeds 0.70 and it
has more than 5 sampled links. -/
def specQualifies (suffix : String) (t : Table) : Prop :=
  (7 : ℚ) / 10 < (specMatched suffix t : ℚ) / (specTotal t : ℚ) ∧ 5 < specTotal t

/-- Every cell of the table reads without a transient failure. -/
def TableOk (t : Table) : Prop :=
  ∀ r ∈ t.rows, ∀ c ∈ r.cells, c.ok = true

theorem chainVal_append_digit (l : List Char) (c : Char) :
    chainVal (l ++ [c]) = chainVal l * 10 + chVal c := by
  simp [chainVal, List.foldl_append]

theorem chVal_digit (d : Nat) (h : d < 10) : chVal (Char.ofNat (48 + d)) = d := by
  interval_cases d <;> decide

theorem natStrAux_zero (f : Nat) : natStrAux f 0 = [] := by
  cases f <;> rfl

theorem chainVal_natStrAux : ∀ f n, 0 < n → n ≤ f → chainVal (natStrAux f n) = n := by
  intro f
  induction f with
  | zero => intro n h1 h2; omega
  | succ f ih =>
    intro n h1 h2
    match n, h1 with
    | m + 1, _ =>
      rw [natStrAux, chainVal_append_digit, chVal_digit _ (Nat.mod_lt _ (by omega))]
      by_cases hq : (m + 1) / 10 = 0
      · rw [hq, natStrAux_zero]
        have : (m + 1) % 10 = m + 1 := Nat.mod_eq_of_lt (by omega)
        simp [chainVal, this]
      · have hlt : (m + 1) / 10 < m + 1 := Nat.div_lt_self (by omega) (by omega)
        rw [ih ((m + 1) / 10) (by omega) (by omega)]
        have := Nat.div_add_mod (m + 1) 10
        omega

theorem chainVal_natStr (n : Nat) : chainVal (natStr n).data = n := by
  by_cases h : n = 0
  · subst h; decide
  · rw [natStr, if_neg h]
    exact chainVal_natStrAux n n (by omega) (by omega)

theorem natStr_injective : ∀ m n : Nat, natStr m = natStr n → m = n := by
  intro m n h
  have h2 := congrArg (fun s => chainVal (String.data s)) h
  simpa [chainVal_natStr] using h2

theorem dget_append (r s : Record) (key : String) :
    dget (r ++ s) key =
      match dget r key with
      | some v => some v
      | none => dget s key := by
  induction r with
  | nil => simp [dget]
  | cons q rest ih =>
    by_cases hq : q.1 = key
    · simp [dget, hq]
    · simp [dget, hq, ih]

theorem dget_eq_none_of_forall (r : Record) (key : String)
    (h : ∀ q ∈ r, q.1 ≠ key) : dget r key = none := by
  induction r with
  | nil => rfl
  | cons q rest ih =>
    rw [dget, if_neg (h q (by simp))]
    exact ih (fun p hp => h p (by simp [hp]))

theorem dget_isSome_of_any (r : Record) (k : String)
    (h : r.any (fun q => q.1 = k) = true) : ∃ w, dget r k = some w := by
  induction r with
  | nil => simp at h
  | cons q rest ih =>
    by_cases hq : q.1 = k
    · exact ⟨q.2, by simp [dget, hq]⟩
    · simp only [List.any_cons, Bool.or_eq_true, decide_eq_true_eq] at h
      rcases h with h | h
      · exact absurd h hq
      · rcases ih h with ⟨w, hw⟩
        exact ⟨w, by simp [dget, hq, hw]⟩

theorem dget_map_overwrite (r : Record) (k v key : String) :
    dget (r.map (fun q => if q.1 = k then (k, v) else q)) key =
      if key = k then
        (match dget r k with | some _ => some v | none => none)
      else dget r key := by
  induction r with
  | nil =>
    by_cases hkey : key = k <;> simp [dget, hkey]
  | cons q rest ih =>
    simp only [List.map_cons]
    by_cases hq : q.1 = k
    · rw [if_pos hq]
      by_cases hkey : key = k
      · subst hkey
        simp [dget, hq]
      · have hne : ¬ (k = key) := fun he => hkey he.symm
        have hqkey : ¬ (q.1 = key) := by rw [hq]; exact hne
        simp only [dget, if_neg hne, if_neg hqkey, ih, if_neg hkey]
    · rw [if_neg hq]
      by_cases hqkey : q.1 = key
      · have hkk : ¬ (key = k) := by rw [← hqkey]; exact hq
        simp [dget, hqkey, hkk]
      · simp only [dget, if_neg hqkey, ih]
        by_cases hkey : key = k
        · simp [hkey, dget, hq]
        · simp [hkey]

theorem dget_dictInsert (r : Record) (k v key : String) :
    dget (dictInsert r k v) key = if key = k then some v else dget r key := by
  cases hmem : r.any (fun q => q.1 = k) with
  | false =>
    rw [dictInsert, if_neg (by simp [hmem]), dget_append]
    have hnone : dget r k = none := by
      apply dget_eq_none_of_forall
      intro q hq
      have := List.any_eq_false.mp hmem q hq
      simpa using this
    by_cases hkey : key = k
    · subst hkey
      simp [hnone, dget]
    · have hne : ¬ (k = key) := fun he => hkey he.symm
      cases h : dget r key
      · simp [if_neg hkey, dget, if_neg hne]
      · simp [if_neg hkey]
  | true =>
    rw [dictInsert, if_pos (by simp [hmem]), dget_map_overwrite]
    rcases dget_isSome_of_any r k hmem with ⟨w, hw⟩
    rw [hw]

/-! ## String key freshness lemmas -/

theorem str_append_left_cancel (p a b : String) (h : p ++ a = p ++ b) : a = b := by
  have h2 := congrArg String.data h
  simp only [String.data_append] at h2
  exact String.ext (List.append_cancel_left h2)

theorem str_ne_of_data_length (a b : String) (h : a.data.length ≠ b.data.length) :
    a ≠ b := by
  intro he
  exact h (congrArg (fun s => s.data.length) he)

theorem str_ne_of_get1 (a b : String) (x y : Char)
    (ha : a.data.get? 1 = some x) (hb : b.data.get? 1 = some y) (hxy : x ≠ y) :
    a ≠ b := by
  intro he
  rw [he, hb] at ha
  exact hxy (Option.some.inj ha).symm

theorem ne_append_of_length_lt (k p s : String)
    (h : k.data.length < p.data.length) : k ≠ p ++ s := by
  intro he
  have h2 := congrArg (fun t => t.data.length) he
  simp only [String.data_append, List.length_append, List.length_cons, List.length_nil] at h2
  omega

theorem ne_append_of_head_ne (k p s : String) (c d : Char)
    (hk : k.data.get? 0 = some c) (hp : p.data.get? 0 = some d) (hcd : c ≠ d) :
    k ≠ p ++ s := by
  intro he
  have h2 := congrArg String.data he
  simp only [String.data_append] at h2
  cases hdp : p.data with
  | nil => rw [hdp] at hp; simp at hp
  | cons x xs =>
    rw [hdp] at h2 hp
    rw [h2] at hk
    simp only [List.cons_append, List.get?] at hk hp
    have hx1 : x = c := Option.some.inj hk
    have hx2 : x = d := Option.some.inj hp
    exact hcd (hx1.symm.trans hx2)

theorem append_ne_append_of_head_ne (p q s t : String) (c d : Char)
    (hp : p.data.get? 0 = some c) (hq : q.data.get? 0 = some d) (hcd : c ≠ d) :
    p ++ s ≠ q ++ t := by
  intro he
  have h2 := congrArg String.data he
  simp only [String.data_append] at h2
  cases hdp : p.data with
  | nil => rw [hdp] at hp; simp at hp
  | cons x xs =>
    cases hdq : q.data with
    | nil => rw [hdq] at hq; simp at hq
    | cons y ys =>
      rw [hdp] at h2 hp
      rw [hdq] at h2 hq
      simp only [List.cons_append, List.cons.injEq] at h2
      simp only [List.get?] at hp hq
      have hx1 : x = c := Option.some.inj hp
      have hy1 : y = d := Option.some.inj hq
      exact hcd (hx1.symm.trans (h2.1.trans hy1))

theorem natStr_data_ne_nil (n : Nat) : (natStr n).data ≠ [] := by
  by_cases h : n = 0
  · subst h; decide
  · rw [natStr, if_neg h]
    match n, h with
    | m + 1, _ =>
      rw [natStrAux]
      simp

theorem natStr_len_pos (n : Nat) : 1 ≤ (natStr n).data.length := by
  cases h : (natStr n).data with
  | nil => exact absurd h (natStr_data_ne_nil n)
  | cons c l => simp

theorem tkey_eq (pfx : String) (i : Nat) :
    tkey pfx i = pfx ++ (if i = 0 then "_title" else "_title_" ++ natStr (i + 1)) := by
  rw [tkey]; split <;> rfl

theorem ukey_eq (pfx : String) (i : Nat) :
    ukey pfx i = pfx ++ (if i = 0 then "_url" else "_url_" ++ natStr (i + 1)) := by
  rw [ukey]; split <;> rfl

/-- Title suffixes have the character t at index 1. -/
theorem titleSfx_get1 (i : Nat) :
    ((if i = 0 then "_title" else "_title_" ++ natStr (i + 1)) : String).data.get? 1
      = some 't' := by
  split
  · decide
  · rw [String.data_append]
    rw [List.get?_append (by decide)]
    decide

/-- Url suffixes have the character u at index 1. -/
theorem urlSfx_get1 (i : Nat) :
    ((if i = 0 then "_url" else "_url_" ++ natStr (i + 1)) : String).data.get? 1
      = some 'u' := by
  split
  · decide
  · rw [String.data_append]
    rw [List.get?_append (by decide)]
    decide

theorem restUrlSfx_get1 (i : Nat) :
    (("_url_" ++ natStr (i + 1)) : String).data.get? 1 = some 'u' := by
  rw [String.data_append]
  rw [List.get?_append (by decide)]
  decide

theorem tkey_ne_ukey (pfx : String) (i j : Nat) : tkey pfx i ≠ ukey pfx j := by
  rw [tkey_eq, ukey_eq]
  intro he
  exact str_ne_of_get1 _ _ 't' 'u' (titleSfx_get1 i) (urlSfx_get1 j) (by decide)
    (str_append_left_cancel pfx _ _ he)

theorem tkey_ne_restUrl (pfx : String) (i j : Nat) :
    tkey pfx i ≠ pfx ++ ("_url_" ++ natStr (j + 1)) := by
  rw [tkey_eq]
  intro he
  exact str_ne_of_get1 _ _ 't' 'u' (titleSfx_get1 i) (restUrlSfx_get1 j) (by decide)
    (str_append_left_cancel pfx _ _ he)

theorem tkey_injective (pfx : String) (i j : Nat) (h : i ≠ j) :
    tkey pfx i ≠ tkey pfx j := by
  rw [tkey_eq, tkey_eq]
  intro he
  have he2 := str_append_left_cancel pfx _ _ he
  have hl1 : ("_title" : String).data.length = 6 := by decide
  have hl2 : ("_title_" : String).data.length = 7 := by decide
  by_cases hi : i = 0 <;> by_cases hj : j = 0
  · exact h (hi.trans hj.symm)
  · rw [if_pos hi, if_neg hj] at he2
    refine str_ne_of_data_length _ _ ?_ he2
    have := natStr_len_pos (j + 1)
    simp only [String.data_append, List.length_append, List.length_cons, List.length_nil]
    omega
  · rw [if_neg hi, if_pos hj] at he2
    refine str_ne_of_data_length _ _ ?_ he2
    have := natStr_len_pos (i + 1)
    simp only [String.data_append, List.length_append, List.length_cons, List.length_nil]
    omega
  · rw [if_neg hi, if_neg hj] at he2
    have h3 := str_append_left_cancel "_title_" _ _ he2
    have := natStr_injective _ _ h3
    omega

theorem ukey_injective (pfx : String) (i j : Nat) (h : i ≠ j) :
    ukey pfx i ≠ ukey pfx j := by
  rw [ukey_eq, ukey_eq]
  intro he
  have he2 := str_append_left_cancel pfx _ _ he
  have hl1 : ("_url" : String).data.length = 4 := by decide
  have hl2 : ("_url_" : String).data.length = 5 := by decide
  by_cases hi : i = 0 <;> by_cases hj : j = 0
  · exact h (hi.trans hj.symm)
  · rw [if_pos hi, if_neg hj] at he2
    refine str_ne_of_data_length _ _ ?_ he2
    have := natStr_len_pos (j + 1)
    simp only [String.data_append, List.length_append, List.length_cons, List.length_nil]
    omega
  · rw [if_neg hi, if_pos hj] at he2
    refine str_ne_of_data_length _ _ ?_ he2
    have := natStr_len_pos (i + 1)
    simp only [String.data_append, List.length_append, List.length_cons, List.length_nil]
    omega
  · rw [if_neg hi, if_neg hj] at he2
    have h3 := str_append_left_cancel "_url_" _ _ he2
    have := natStr_injective _ _ h3
    omega

theorem ukey_ne_restUrl (pfx : String) (i j : Nat) (h : i ≠ j) :
    ukey pfx i ≠ pfx ++ ("_url_" ++ natStr (j + 1)) := by
  rw [ukey_eq]
  intro he
  have he2 := str_append_left_cancel pfx _ _ he
  have hl1 : ("_url" : String).data.length = 4 := by decide
  have hl2 : ("_url_" : String).data.length = 5 := by decide
  by_cases hi : i = 0
  · rw [if_pos hi] at he2
    refine str_ne_of_data_length _ _ ?_ he2
    have := natStr_len_pos (j + 1)
    simp only [String.data_append, List.length_append, List.length_cons, List.length_nil]
    omega
  · rw [if_neg hi] at he2
    have h3 := str_append_left_cancel "_url_" _ _ he2
    have := natStr_injective _ _ h3
    omega

theorem restUrl_injective (pfx : String) (i j : Nat) (h : i ≠ j) :
    pfx ++ ("_url_" ++ natStr (i + 1)) ≠ pfx ++ ("_url_" ++ natStr (j + 1)) := by
  intro he
  have he2 := str_append_left_cancel pfx _ _ he
  have h3 := str_append_left_cancel "_url_" _ _ he2
  have := natStr_injective _ _ h3
  omega

/-! ## Behaviour of the storage loops -/

theorem setInsert_mem (cols : List String) (k k2 : String) :
    k ∈ setInsert cols k2 ↔ k ∈ cols ∨ k = k2 := by
  rw [setInsert]
  split
  · constructor
    · exact fun h => Or.inl h
    · rintro (h | h)
      · exact h
      · subst h; assumption
  · simp

theorem store_pairs_get_keep (pfx : String) :
    ∀ (ps : List (String × String)) (i : Nat) (r : Record) (cols : List String)
      (key : String),
      (∀ j, i ≤ j → key ≠ tkey pfx j ∧ key ≠ ukey pfx j) →
      dget (store_pairs pfx i r cols ps).1 key = dget r key := by
  intro ps
  induction ps with
  | nil => intro i r cols key _; rfl
  | cons p rest ih =>
    intro i r cols key hk
    rw [store_pairs, ih _ _ _ _ (fun j hj => hk j (by omega))]
    rw [dget_dictInsert, if_neg (hk i (le_refl i)).2,
        dget_dictInsert, if_neg (hk i (le_refl i)).1]

theorem store_rest_urls_get_keep (pfx : String) :
    ∀ (us : List String) (i : Nat) (r : Record) (cols : List String) (key : String),
      (∀ j, i ≤ j → key ≠ pfx ++ ("_url_" ++ natStr (j + 1))) →
      dget (store_rest_urls pfx i r cols us).1 key = dget r key := by
  intro us
  induction us with
  | nil => intro i r cols key _; rfl
  | cons u rest ih =>
    intro i r cols key hk
    rw [store_rest_urls, ih _ _ _ _ (fun j hj => hk j (by omega))]
    rw [dget_dictInsert, if_neg (hk i (le_refl i))]

theorem store_pairs_get_at_title (pfx : String) :
    ∀ (ps : List (String × String)) (i m : Nat) (r : Record) (cols : List String),
      m < ps.length →
      dget (store_pairs pfx i r cols ps).1 (tkey pfx (i + m))
        = (ps.get? m).map Prod.fst := by
  intro ps
  induction ps with
  | nil => intro i m r cols h; simp at h
  | cons p rest ih =>
    intro i m r cols h
    cases m with
    | zero =>
      rw [Nat.add_zero, store_pairs]
      rw [store_pairs_get_keep pfx rest (i + 1) _ _ _
        (fun j hj => ⟨tkey_injective pfx i j (by omega), tkey_ne_ukey pfx i j⟩)]
      rw [dget_dictInsert, if_neg (tkey_ne_ukey pfx i i),
          dget_dictInsert, if_pos rfl]
      rfl
    | succ m2 =>
      rw [store_pairs]
      have harith : i + (m2 + 1) = (i + 1) + m2 := by omega
      rw [harith, ih (i + 1) m2 _ _ (by simpa using h)]
      rfl

theorem store_pairs_get_at_url (pfx : String) :
    ∀ (ps : List (String × String)) (i m : Nat) (r : Record) (cols : List String),
      m < ps.length →
      dget (store_pairs pfx i r cols ps).1 (ukey pfx (i + m))
        = (ps.get? m).map Prod.snd := by
  intro ps
  induction ps with
  | nil => intro i m r cols h; simp at h
  | cons p rest ih =>
    intro i m r cols h
    cases m with
    | zero =>
      rw [Nat.add_zero, store_pairs]
      rw [store_pairs_get_keep pfx rest (i + 1) _ _ _
        (fun j hj => ⟨(tkey_ne_ukey pfx j i).symm, ukey_injective pfx i j (by omega)⟩)]
      rw [dget_dictInsert, if_pos rfl]
      rfl
    | succ m2 =>
      rw [store_pairs]
      have harith : i + (m2 + 1) = (i + 1) + m2 := by omega
      rw [harith, ih (i + 1) m2 _ _ (by simpa using h)]
      rfl

theorem store_pairs_cols_mem (pfx : String) :
    ∀ (ps : List (String × String)) (i : Nat) (r : Record) (cols : List String)
      (k : String),
      k ∈ (store_pairs pfx i r cols ps).2 →
      k ∈ cols ∨ ∃ j, i ≤ j ∧ (k = tkey pfx j ∨ k = ukey pfx j) := by
  intro ps
  induction ps with
  | nil => intro i r cols k h; exact Or.inl h
  | cons p rest ih =>
    intro i r cols k h
    rw [store_pairs] at h
    rcases ih _ _ _ _ h with h2 | ⟨j, hj, h3⟩
    · rw [setInsert_mem, setInsert_mem] at h2
      rcases h2 with (h2 | h2) | h2
      · exact Or.inl h2
      · exact Or.inr ⟨i, le_refl i, Or.inl h2⟩
      · exact Or.inr ⟨i, le_refl i, Or.inr h2⟩
    · exact Or.inr ⟨j, by omega, h3⟩

theorem store_rest_urls_cols_mem (pfx : String) :
    ∀ (us : List String) (i : Nat) (r : Record) (cols : List String) (k : String),
      k ∈ (store_rest_urls pfx i r cols us).2 →
      k ∈ cols ∨ ∃ j, i ≤ j ∧ k = pfx ++ ("_url_" ++ natStr (j + 1)) := by
  intro us
  induction us with
  | nil => intro i r cols k h; exact Or.inl h
  | cons u rest ih =>
    intro i r cols k h
    rw [store_rest_urls] at h
    rcases ih _ _ _ _ h with h2 | ⟨j, hj, h3⟩
    · rw [setInsert_mem] at h2
      rcases h2 with h2 | h2
      · exact Or.inl h2
      · exact Or.inr ⟨i, le_refl i, h2⟩
    · exact Or.inr ⟨j, by omega, h3⟩

/-- Keys not of the shape of any column generated from this
group's column family are untouched by the store. -/
theorem store_cell_data_get_other (r : Record) (cols : List String) (pfx : String)
    (ts us : List String) (key : String) (hk : ∀ s : String, key ≠ pfx ++ s) :
    dget (store_cell_data r cols pfx ts us).1 key = dget r key := by
  rw [store_cell_data]
  split
  · rw [dget_dictInsert, if_neg (hk "_url"), dget_dictInsert, if_neg (hk "_title")]
  · rw [store_rest_urls_get_keep pfx _ _ _ _ _
      (fun j _ => hk ("_url_" ++ natStr (j + 1)))]
    rw [store_pairs_get_keep pfx _ _ _ _ _
      (fun j _ => ⟨by rw [tkey_eq]; exact hk _, by rw [ukey_eq]; exact hk _⟩)]

/-- The base pair of columns always holds the head of the titles
list and of the urls list (empty strings when the group is empty),
provided the urls cannot be non-empty while the titles are empty. -/
theorem store_cell_data_get_base (r : Record) (cols : List String) (pfx : String)
    (ts us : List String) (h0 : ts = [] → us = []) :
    dget (store_cell_data r cols pfx ts us).1 (pfx ++ "_title") = some (ts.headD "") ∧
    dget (store_cell_data r cols pfx ts us).1 (pfx ++ "_url") = some (us.headD "") := by
  have htu : (pfx ++ "_title" : String) ≠ pfx ++ "_url" := tkey_ne_ukey pfx 0 0
  cases ts with
  | nil =>
    rw [h0 rfl]
    rw [store_cell_data, if_pos ⟨rfl, rfl⟩]
    constructor
    · rw [dget_dictInsert, if_neg htu, dget_dictInsert, if_pos rfl]
      rfl
    · rw [dget_dictInsert, if_pos rfl]
      rfl
  | cons t ts2 =>
    have hcond : ¬ ((t :: ts2 : List String) = [] ∧ us = []) := by
      intro hc
      exact List.cons_ne_nil t ts2 hc.1
    rw [store_cell_data, if_neg hcond]
    dsimp only
    have hzip : ∃ u0 rest2, (t :: ts2).zip (us ++ List.replicate ((t :: ts2).length - us.length) "")
        = (t, u0) :: rest2 ∧ u0 = us.headD "" ∧
        rest2 = ts2.zip ((us ++ List.replicate ((t :: ts2).length - us.length) "").tail) := by
      cases us with
      | nil =>
        refine ⟨"", ts2.zip (List.replicate ((t :: ts2).length - 1) ""), ?_, rfl, ?_⟩
        · simp [List.replicate]
        · simp [List.replicate]
      | cons u us2 =>
        exact ⟨u, ts2.zip (us2 ++ List.replicate ((t :: ts2).length - (u :: us2).length) ""), by simp, rfl, by simp⟩
    rcases hzip with ⟨u0, rest2, hz, hu0, _⟩
    rw [hz]
    rw [show (t :: ts2).length = ts2.length + 1 from rfl]
    constructor
    · rw [store_rest_urls_get_keep pfx _ _ _ _ _
        (fun j _ => show (pfx ++ "_title" : String) ≠ pfx ++ ("_url_" ++ natStr (j + 1)) from
          tkey_ne_restUrl pfx 0 j)]
      rw [store_pairs, store_pairs_get_keep pfx _ _ _ _ _
        (fun j hj => ⟨show (pfx ++ "_title" : String) ≠ tkey pfx j from
            tkey_injective pfx 0 j (by omega),
          show (pfx ++ "_title" : String) ≠ ukey pfx j from tkey_ne_ukey pfx 0 j⟩)]
      rw [dget_dictInsert, if_neg (show ¬ ((pfx ++ "_title" : String) = ukey pfx 0) from
        tkey_ne_ukey pfx 0 0)]
      rw [dget_dictInsert, if_pos (show (pfx ++ "_title" : String) = tkey pfx 0 from rfl)]
      rfl
    · rw [store_rest_urls_get_keep pfx _ _ _ _ _
        (fun j hj => show (pfx ++ "_url" : String) ≠ pfx ++ ("_url_" ++ natStr (j + 1)) from
          ukey_ne_restUrl pfx 0 j (by omega))]
      rw [store_pairs, store_pairs_get_keep pfx _ _ _ _ _
        (fun j hj => ⟨show (pfx ++ "_url" : String) ≠ tkey pfx j from
            (tkey_ne_ukey pfx j 0).symm,
          show (pfx ++ "_url" : String) ≠ ukey pfx j from ukey_injective pfx 0 j (by omega)⟩)]
      rw [dget_dictInsert, if_pos (show (pfx ++ "_url" : String) = ukey pfx 0 from rfl), hu0]

theorem natStr_one : natStr 1 = "1" := by decide

theorem natStr_two : natStr 2 = "2" := by decide

theorem natStr_three : natStr 3 = "3" := by decide

theorem str_append_inj_iff (p a b : String) : (p ++ a = p ++ b) ↔ a = b :=
  ⟨str_append_left_cancel p a b, fun h => h ▸ rfl⟩

theorem tkey_ne_title1 (pfx : String) (j : Nat) : tkey pfx j ≠ pfx ++ "_title_1" := by
  intro he
  have h1 : ("_title_" : String) ++ natStr 1 = "_title_1" := by decide
  have hsplit : (pfx ++ "_title_1" : String) = pfx ++ ("_title_" ++ natStr 1) := by
    rw [h1]
  rw [hsplit, tkey_eq] at he
  have he2 := str_append_left_cancel pfx _ _ he
  by_cases hj : j = 0
  · rw [if_pos hj] at he2
    refine str_ne_of_data_length _ _ ?_ he2
    have := natStr_len_pos 1
    simp only [String.data_append, List.length_append, List.length_cons, List.length_nil]
    omega
  · rw [if_neg hj] at he2
    have h3 := str_append_left_cancel "_title_" _ _ he2
    have := natStr_injective _ _ h3
    omega

theorem ukey_ne_url1 (pfx : String) (j : Nat) : ukey pfx j ≠ pfx ++ "_url_1" := by
  intro he
  have h1 : ("_url_" : String) ++ natStr 1 = "_url_1" := by decide
  have hsplit : (pfx ++ "_url_1" : String) = pfx ++ ("_url_" ++ natStr 1) := by
    rw [h1]
  rw [hsplit, ukey_eq] at he
  have he2 := str_append_left_cancel pfx _ _ he
  by_cases hj : j = 0
  · rw [if_pos hj] at he2
    refine str_ne_of_data_length _ _ ?_ he2
    have := natStr_len_pos 1
    simp only [String.data_append, List.length_append, List.length_cons, List.length_nil]
    omega
  · rw [if_neg hj] at he2
    have h3 := str_append_left_cancel "_url_" _ _ he2
    have := natStr_injective _ _ h3
    omega

theorem tkey_ne_url1 (pfx : String) (j : Nat) : tkey pfx j ≠ pfx ++ "_url_1" := by
  rw [tkey_eq]
  intro he
  exact str_ne_of_get1 _ _ 't' 'u' (titleSfx_get1 j) (by decide) (by decide)
    (str_append_left_cancel pfx _ _ he)

theorem ukey_ne_title1 (pfx : String) (j : Nat) : ukey pfx j ≠ pfx ++ "_title_1" := by
  rw [ukey_eq]
  intro he
  exact str_ne_of_get1 _ _ 'u' 't' (urlSfx_get1 j) (by decide) (by decide)
    (str_append_left_cancel pfx _ _ he)

theorem restUrl_ne_title1 (pfx : String) (j : Nat) :
    pfx ++ ("_url_" ++ natStr (j + 1)) ≠ pfx ++ "_title_1" := by
  intro he
  exact str_ne_of_get1 _ _ 'u' 't' (restUrlSfx_get1 j) (by decide) (by decide)
    (str_append_left_cancel pfx _ _ he)

theorem restUrl_ne_url1 (pfx : String) (j : Nat) (h : j ≠ 0) :
    pfx ++ ("_url_" ++ natStr (j + 1)) ≠ pfx ++ "_url_1" := by
  intro he
  have h1 : ("_url_" : String) ++ natStr 1 = "_url_1" := by decide
  have hsplit : (pfx ++ "_url_1" : String) = pfx ++ ("_url_" ++ natStr 1) := by
    rw [h1]
  rw [hsplit] at he
  have he2 := str_append_left_cancel pfx _ _ he
  have h3 := str_append_left_cancel "_url_" _ _ he2
  have := natStr_injective _ _ h3
  omega

theorem zip_get? {α β : Type} :
    ∀ (l1 : List α) (l2 : List β) (m : Nat),
      (l1.zip l2).get? m =
        match l1.get? m, l2.get? m with
        | some a, some b => some (a, b)
        | _, _ => none := by
  intro l1
  induction l1 with
  | nil => intro l2 m; cases m <;> simp
  | cons a l1' ih =>
    intro l2 m
    cases l2 with
    | nil => cases m <;> simp
    | cons b l2' =>
      cases m with
      | zero => simp
      | succ m2 => simpa using ih l2' m2

/-- Claim C3: storing an empty group writes exactly the two base
columns with empty values and no numbered variant, and storing a
group of three titles and three urls writes exactly the six
columns base, base-2 and base-3 for titles and urls, paired by
position, for every column family name. -/
theorem storeGroup_empty_and_three (p t1 t2 t3 u1 u2 u3 : String) :
    store_cell_data [] [] p [] [] =
      ([(p ++ "_title", ""), (p ++ "_url", "")],
       [p ++ "_title", p ++ "_url"]) ∧
    store_cell_data [] [] p [t1, t2, t3] [u1, u2, u3] =
      ([(p ++ "_title", t1), (p ++ "_url", u1),
        (p ++ "_title_2", t2), (p ++ "_url_2", u2),
        (p ++ "_title_3", t3), (p ++ "_url_3", u3)],
       [p ++ "_title", p ++ "_url", p ++ "_title_2", p ++ "_url_2",
        p ++ "_title_3", p ++ "_url_3"]) := by
  constructor
  · simp [store_cell_data, store_pairs, store_rest_urls, dictInsert, setInsert,
      tkey, ukey, str_append_inj_iff]
  · simp [store_cell_data, store_pairs, store_rest_urls, dictInsert, setInsert,
      tkey, ukey, natStr_two, natStr_three, str_append_inj_iff]

/-- Claim C4 counterexample: a group with no titles and one url is
non-empty, yet the store writes the single column with ordinal
suffix one and does not write the unsuffixed base url column. -/
theorem storeGroup_url_only_counterexample :
    (store_cell_data [] [] "P" [] ["u"]).1 = [("P_url_1", "u")] ∧
    dget (store_cell_data [] [] "P" [] ["u"]).1 "P_url" = none ∧
    (store_cell_data [] [] "P" [] ["u"]).2 = ["P_url_1"] := by decide

/-- Claim C4 (amended): for every group passed to the store whose
title list is non-empty, including groups where the title and url
lists have different lengths, the first element is stored under
the unsuffixed base columns, elements at index one and later are
stored under ordinal suffixes starting at two, and no newly
registered column carries the ordinal suffix one. -/
theorem storeGroup_nonempty_titles (r : Record) (cols : List String) (pfx : String)
    (ts us : List String) (h : ts ≠ []) :
    dget (store_cell_data r cols pfx ts us).1 (pfx ++ "_title") = some (ts.headD "") ∧
    dget (store_cell_data r cols pfx ts us).1 (pfx ++ "_url") = some (us.headD "") ∧
    (∀ i, 1 ≤ i → i < ts.length →
      dget (store_cell_data r cols pfx ts us).1 (pfx ++ ("_title_" ++ natStr (i + 1)))
          = ts.get? i ∧
      dget (store_cell_data r cols pfx ts us).1 (pfx ++ ("_url_" ++ natStr (i + 1)))
          = (us ++ List.replicate (ts.length - us.length) "").get? i) ∧
    (∀ k, k ∈ (store_cell_data r cols pfx ts us).2 → k ∉ cols →
      k ≠ pfx ++ "_title_1" ∧ k ≠ pfx ++ "_url_1") := by
  have hcond : ¬ (ts = [] ∧ us = []) := fun hc => h hc.1
  refine ⟨(store_cell_data_get_base r cols pfx ts us (fun he => absurd he h)).1,
          (store_cell_data_get_base r cols pfx ts us (fun he => absurd he h)).2,
          ?_, ?_⟩
  · intro i h1 hi
    have htk : tkey pfx i = pfx ++ ("_title_" ++ natStr (i + 1)) := by
      rw [tkey_eq, if_neg (by omega)]
    have huk : ukey pfx i = pfx ++ ("_url_" ++ natStr (i + 1)) := by
      rw [ukey_eq, if_neg (by omega)]
    have hlen2 : ts.length ≤ (us ++ List.replicate (ts.length - us.length) "").length := by
      simp only [List.length_append, List.length_replicate]
      omega
    have hzl : i < (ts.zip (us ++ List.replicate (ts.length - us.length) "")).length := by
      rw [List.length_zip]
      omega
    have hts : ts.get? i = some (ts.get ⟨i, hi⟩) := List.get?_eq_get hi
    have hus : (us ++ List.replicate (ts.length - us.length) "").get? i
        = some ((us ++ List.replicate (ts.length - us.length) "").get ⟨i, by omega⟩) :=
      List.get?_eq_get (by omega)
    rw [store_cell_data, if_neg hcond]
    dsimp only
    constructor
    · have h3 := store_pairs_get_at_title pfx
        (ts.zip (us ++ List.replicate (ts.length - us.length) "")) 0 i r cols hzl
      rw [Nat.zero_add] at h3
      rw [← htk]
      rw [store_rest_urls_get_keep pfx _ _ _ _ _ (fun j _ => tkey_ne_restUrl pfx i j)]
      rw [h3, zip_get?, hts, hus]
      rfl
    · have h3 := store_pairs_get_at_url pfx
        (ts.zip (us ++ List.replicate (ts.length - us.length) "")) 0 i r cols hzl
      rw [Nat.zero_add] at h3
      rw [← huk]
      rw [store_rest_urls_get_keep pfx _ _ _ _ _
        (fun j hj => ukey_ne_restUrl pfx i j (by omega))]
      rw [h3, zip_get?, hts, hus]
      rfl
  · intro k hk hkc
    rw [store_cell_data, if_neg hcond] at hk
    dsimp only at hk
    have hts1 : 1 ≤ ts.length := by
      cases ts with
      | nil => exact absurd rfl h
      | cons a l => simp
    rcases store_rest_urls_cols_mem pfx _ _ _ _ _ hk with h2 | ⟨j, hj, h3⟩
    · rcases store_pairs_cols_mem pfx _ _ _ _ _ h2 with h4 | ⟨j, _, h5 | h5⟩
      · exact absurd h4 hkc
      · subst h5
        exact ⟨tkey_ne_title1 pfx j, tkey_ne_url1 pfx j⟩
      · subst h5
        exact ⟨ukey_ne_title1 pfx j, ukey_ne_url1 pfx j⟩
    · subst h3
      exact ⟨restUrl_ne_title1 pfx j, restUrl_ne_url1 pfx j (by omega)⟩

/-- Claim C4 amended witness at a concrete group with two titles
and one url. -/
theorem storeGroup_nonempty_titles_witness :
    dget (store_cell_data [] [] "P" ["a", "b"] ["u"]).1 ("P" ++ "_title") = some "a" ∧
    dget (store_cell_data [] [] "P" ["a", "b"] ["u"]).1 ("P" ++ "_url") = some "u" := by
  have h := storeGroup_nonempty_titles [] [] "P" ["a", "b"] ["u"] (by decide)
  exact ⟨h.1, h.2.1⟩

theorem dget_normalize_fold :
    ∀ (H : List String) (acc : Record) (r : Record) (key : String),
      dget (H.foldl (fun a h2 => dictInsert a h2 ((dget r h2).getD "")) acc) key
        = if key ∈ H then some ((dget r key).getD "") else dget acc key := by
  intro H
  induction H with
  | nil => intro acc r key; simp
  | cons h2 rest ih =>
    intro acc r key
    rw [List.foldl_cons, ih]
    by_cases hmem : key ∈ rest
    · rw [if_pos hmem, if_pos (by simp [hmem])]
    · rw [if_neg hmem, dget_dictInsert]
      by_cases hkh : key = h2
      · rw [if_pos hkh, if_pos (by simp [hkh])]
        subst hkh
        rfl
      · rw [if_neg hkh, if_neg (by simp [hkh, hmem])]

theorem normalize_fold_congr :
    ∀ (H : List String) (acc : Record) (r1 r2 : Record),
      (∀ h2 ∈ H, (dget r1 h2).getD "" = (dget r2 h2).getD "") →
      H.foldl (fun a h2 => dictInsert a h2 ((dget r1 h2).getD "")) acc
        = H.foldl (fun a h2 => dictInsert a h2 ((dget r2 h2).getD "")) acc := by
  intro H
  induction H with
  | nil => intro acc r1 r2 _; rfl
  | cons h2 rest ih =>
    intro acc r1 r2 hv
    rw [List.foldl_cons, List.foldl_cons, hv h2 (by simp)]
    exact ih _ r1 r2 (fun h3 hh3 => hv h3 (by simp [hh3]))

/-- Claim C9: the normalizer maps each header to the record's
value when present and the empty string otherwise, drops keys not
in the header list, and is idempotent. -/
theorem normalizer_pure_and_idempotent (r : Record) (H : List String) :
    (∀ h2 ∈ H, dget (normalize_row_data r H) h2 = some ((dget r h2).getD "")) ∧
    (∀ k, k ∉ H → dget (normalize_row_data r H) k = none) ∧
    normalize_row_data (normalize_row_data r H) H = normalize_row_data r H := by
  refine ⟨?_, ?_, ?_⟩
  · intro h2 hh2
    rw [normalize_row_data, dget_normalize_fold, if_pos hh2]
  · intro k hk
    rw [normalize_row_data, dget_normalize_fold, if_neg hk]
    rfl
  · rw [normalize_row_data, normalize_row_data]
    apply normalize_fold_congr
    intro h2 hh2
    rw [dget_normalize_fold, if_pos hh2]
    rfl

/-- Claim C9 witness at a concrete record and header list. -/
theorem normalizer_pure_and_idempotent_witness :
    dget (normalize_row_data [("Date", "x"), ("Junk", "y")] ["Year", "Date"]) "Date"
        = some "x" ∧
    dget (normalize_row_data [("Date", "x"), ("Junk", "y")] ["Year", "Date"]) "Junk"
        = none ∧
    normalize_row_data
        (normalize_row_data [("Date", "x"), ("Junk", "y")] ["Year", "Date"])
        ["Year", "Date"]
      = normalize_row_data [("Date", "x"), ("Junk", "y")] ["Year", "Date"] := by
  have h := normalizer_pure_and_idempotent [("Date", "x"), ("Junk", "y")] ["Year", "Date"]
  refine ⟨(h.1 "Date" (by decide)).trans (by decide), h.2.1 "Junk" (by decide), h.2.2⟩

theorem sortStr_perm_eq (l1 l2 : List String) (h : l1.Perm l2) :
    sortStr l1 = sortStr l2 := by
  refine List.eq_of_perm_of_sorted (r := (· ≤ ·))
    (((List.perm_insertionSort _ l1).trans h).trans (List.perm_insertionSort _ l2).symm)
    (List.sorted_insertionSort _ l1) (List.sorted_insertionSort _ l2)

theorem mem_sortStr (k : String) (l : List String) : k ∈ sortStr l ↔ k ∈ l :=
  (List.perm_insertionSort _ l).mem_iff

theorem nodup_sortStr (l : List String) (h : l.Nodup) : (sortStr l).Nodup :=
  (List.perm_insertionSort (· ≤ ·) l).nodup_iff.mpr h

theorem startsWith_get0 (s pat : String) (c : Char)
    (hp : pat.data.get? 0 = some c) (h : strStartsWith s pat = true) :
    s.data.get? 0 = some c := by
  rw [strStartsWith] at h
  have hpre : pat.data <+: s.data := by simpa using h
  rcases hpre with ⟨t, ht⟩
  rw [← ht, List.get?_append]
  · exact hp
  · cases hd : pat.data with
    | nil => rw [hd] at hp; simp at hp
    | cons x xs => simp

theorem disjoint_of_get0 (l1 l2 : List String) (c d : Char) (hcd : c ≠ d)
    (h1 : ∀ k ∈ l1, k.data.get? 0 = some c)
    (h2 : ∀ k ∈ l2, k.data.get? 0 = some d) :
    l1.Disjoint l2 := by
  intro a h1a h2a
  exact hcd (Option.some.inj ((h1 a h1a).symm.trans (h2 a h2a)))

theorem mem_asicColumns (cols : List String) (k : String) :
    k ∈ asicColumns cols ↔ k ∈ cols ∧ strStartsWith k "ASIC_Gazette" = true := by
  rw [asicColumns, mem_sortStr, List.mem_filter]

theorem mem_businessColumns (cols : List String) (k : String) :
    k ∈ businessColumns cols ↔ k ∈ cols ∧ strStartsWith k "Business_Gazette" = true := by
  rw [businessColumns, mem_sortStr, List.mem_filter]

theorem mem_otherNotesColumns (cols : List String) (k : String) :
    k ∈ otherNotesColumns cols ↔ k ∈ cols ∧ strStartsWith k "Other_Notes" = true := by
  rw [otherNotesColumns, mem_sortStr, List.mem_filter]

theorem mem_otherOnlyColumns (cols : List String) (k : String) :
    k ∈ otherOnlyColumns cols ↔
      k ∈ cols ∧ strStartsWith k "Other" = true ∧ strStartsWith k "Other_Notes" = false := by
  rw [otherOnlyColumns, mem_sortStr, List.mem_filter]
  simp [Bool.and_eq_true]

theorem mem_notesColumns (cols : List String) (k : String) :
    k ∈ notesColumns cols ↔ k ∈ cols ∧ strStartsWith k "Notes" = true := by
  rw [notesColumns, mem_sortStr, List.mem_filter]

theorem mem_remainingColumns (cols : List String) (k : String) :
    k ∈ remainingColumns cols ↔ k ∈ cols ∧ k ∉ orderedHeadersPart cols := by
  rw [remainingColumns, mem_sortStr, List.mem_filter]
  simp

theorem asic_get0 (cols : List String) (k : String) (hk : k ∈ asicColumns cols) :
    k.data.get? 0 = some 'A' :=
  startsWith_get0 k "ASIC_Gazette" 'A' (by decide) ((mem_asicColumns cols k).mp hk).2

theorem business_get0 (cols : List String) (k : String) (hk : k ∈ businessColumns cols) :
    k.data.get? 0 = some 'B' :=
  startsWith_get0 k "Business_Gazette" 'B' (by decide) ((mem_businessColumns cols k).mp hk).2

theorem otherNotes_get0 (cols : List String) (k : String) (hk : k ∈ otherNotesColumns cols) :
    k.data.get? 0 = some 'O' :=
  startsWith_get0 k "Other_Notes" 'O' (by decide) ((mem_otherNotesColumns cols k).mp hk).2

theorem otherOnly_get0 (cols : List String) (k : String) (hk : k ∈ otherOnlyColumns cols) :
    k.data.get? 0 = some 'O' :=
  startsWith_get0 k "Other" 'O' (by decide) ((mem_otherOnlyColumns cols k).mp hk).2.1

theorem notes_get0 (cols : List String) (k : String) (hk : k ∈ notesColumns cols) :
    k.data.get? 0 = some 'N' :=
  startsWith_get0 k "Notes" 'N' (by decide) ((mem_notesColumns cols k).mp hk).2

/-- Claim C7: header derivation is a function of the registered
key set only; two registries holding the same keys in any
insertion order produce identical header lists. -/
theorem deriveHeaders_set_function (cols1 cols2 : List String)
    (h1 : cols1.Nodup) (h2 : cols2.Nodup)
    (hmem : ∀ k, k ∈ cols1 ↔ k ∈ cols2) :
    generate_dynamic_headers cols1 = generate_dynamic_headers cols2 := by
  have hperm : cols1.Perm cols2 := (List.perm_ext_iff_of_nodup h1 h2).mpr hmem
  have eA : asicColumns cols1 = asicColumns cols2 :=
    sortStr_perm_eq _ _ (hperm.filter _)
  have eB : businessColumns cols1 = businessColumns cols2 :=
    sortStr_perm_eq _ _ (hperm.filter _)
  have eON : otherNotesColumns cols1 = otherNotesColumns cols2 :=
    sortStr_perm_eq _ _ (hperm.filter _)
  have eOO : otherOnlyColumns cols1 = otherOnlyColumns cols2 :=
    sortStr_perm_eq _ _ (hperm.filter _)
  have eN : notesColumns cols1 = notesColumns cols2 :=
    sortStr_perm_eq _ _ (hperm.filter _)
  have hOrd : orderedHeadersPart cols1 = orderedHeadersPart cols2 := by
    rw [orderedHeadersPart, orderedHeadersPart, eA, eB, eON, eOO, eN]
  rw [generate_dynamic_headers, generate_dynamic_headers,
    remainingColumns, remainingColumns, hOrd]
  congr 1
  exact sortStr_perm_eq _ _ (hperm.filter _)

/-- Claim C7 witness: two insertion orders of the same key set. -/
theorem deriveHeaders_set_function_witness :
    generate_dynamic_headers ["Notes_title", "ASIC_Gazette_title"]
      = generate_dynamic_headers ["ASIC_Gazette_title", "Notes_title"] :=
  deriveHeaders_set_function _ _ (by decide) (by decide)
    (by intro k; simp only [List.mem_cons, List.not_mem_nil, or_false]; tauto)

/-- Claim C8: the derived header list has no duplicates, contains
every registered key, and consists of the fixed pair Year and
Date followed by the internally sorted blocks for ASIC Gazette,
Business Gazette, Other without Other Notes, Notes and Other
Notes keys, then the sorted remaining registered keys. -/
theorem deriveHeaders_nodup_superset_ordered (cols : List String) (h : cols.Nodup) :
    (generate_dynamic_headers cols).Nodup ∧
    (∀ k ∈ cols, k ∈ generate_dynamic_headers cols) ∧
    generate_dynamic_headers cols
      = ["Year", "Date"] ++ asicColumns cols ++ businessColumns cols
        ++ otherOnlyColumns cols ++ notesColumns cols ++ otherNotesColumns cols
        ++ remainingColumns cols ∧
    List.Sorted (fun a b => a ≤ b) (asicColumns cols) ∧
    (∀ k, k ∈ asicColumns cols ↔ k ∈ cols ∧ strStartsWith k "ASIC_Gazette" = true) ∧
    List.Sorted (fun a b => a ≤ b) (businessColumns cols) ∧
    (∀ k, k ∈ businessColumns cols ↔ k ∈ cols ∧ strStartsWith k "Business_Gazette" = true) ∧
    List.Sorted (fun a b => a ≤ b) (otherOnlyColumns cols) ∧
    (∀ k, k ∈ otherOnlyColumns cols ↔
      k ∈ cols ∧ strStartsWith k "Other" = true ∧ strStartsWith k "Other_Notes" = false) ∧
    List.Sorted (fun a b => a ≤ b) (notesColumns cols) ∧
    (∀ k, k ∈ notesColumns cols ↔ k ∈ cols ∧ strStartsWith k "Notes" = true) ∧
    List.Sorted (fun a b => a ≤ b) (otherNotesColumns cols) ∧
    (∀ k, k ∈ otherNotesColumns cols ↔ k ∈ cols ∧ strStartsWith k "Other_Notes" = true) ∧
    List.Sorted (fun a b => a ≤ b) (remainingColumns cols) ∧
    (∀ k, k ∈ remainingColumns cols ↔ k ∈ cols ∧ k ∉ orderedHeadersPart cols) := by
  have ndYD : (["Year", "Date"] : List String).Nodup := by decide
  have ndA : (asicColumns cols).Nodup := nodup_sortStr _ (h.filter _)
  have ndB : (businessColumns cols).Nodup := nodup_sortStr _ (h.filter _)
  have ndOO : (otherOnlyColumns cols).Nodup := nodup_sortStr _ (h.filter _)
  have ndN : (notesColumns cols).Nodup := nodup_sortStr _ (h.filter _)
  have ndON : (otherNotesColumns cols).Nodup := nodup_sortStr _ (h.filter _)
  have ndR : (remainingColumns cols).Nodup := nodup_sortStr _ (h.filter _)
  have dYD : ∀ (l : List String) (c : Char),
      (∀ k ∈ l, k.data.get? 0 = some c) → ('Y' : Char) ≠ c → ('D' : Char) ≠ c →
      (["Year", "Date"] : List String).Disjoint l := by
    intro l c hc hY hD a ha hal
    have hga := hc a hal
    simp only [List.mem_cons, List.not_mem_nil, or_false] at ha
    rcases ha with rfl | rfl
    · refine hY ?_
      have h0 : ("Year" : String).data.get? 0 = some 'Y' := by decide
      exact Option.some.inj (h0.symm.trans hga)
    · refine hD ?_
      have h0 : ("Date" : String).data.get? 0 = some 'D' := by decide
      exact Option.some.inj (h0.symm.trans hga)
  have dYD_A := dYD _ 'A' (asic_get0 cols) (by decide) (by decide)
  have dYD_B := dYD _ 'B' (business_get0 cols) (by decide) (by decide)
  have dYD_OO := dYD _ 'O' (otherOnly_get0 cols) (by decide) (by decide)
  have dYD_N := dYD _ 'N' (notes_get0 cols) (by decide) (by decide)
  have dYD_ON := dYD _ 'O' (otherNotes_get0 cols) (by decide) (by decide)
  have dA_B := disjoint_of_get0 _ _ 'A' 'B' (by decide) (asic_get0 cols) (business_get0 cols)
  have dA_OO := disjoint_of_get0 _ _ 'A' 'O' (by decide) (asic_get0 cols) (otherOnly_get0 cols)
  have dA_N := disjoint_of_get0 _ _ 'A' 'N' (by decide) (asic_get0 cols) (notes_get0 cols)
  have dA_ON := disjoint_of_get0 _ _ 'A' 'O' (by decide) (asic_get0 cols) (otherNotes_get0 cols)
  have dB_OO := disjoint_of_get0 _ _ 'B' 'O' (by decide) (business_get0 cols) (otherOnly_get0 cols)
  have dB_N := disjoint_of_get0 _ _ 'B' 'N' (by decide) (business_get0 cols) (notes_get0 cols)
  have dB_ON := disjoint_of_get0 _ _ 'B' 'O' (by decide) (business_get0 cols) (otherNotes_get0 cols)
  have dOO_N := disjoint_of_get0 _ _ 'O' 'N' (by decide) (otherOnly_get0 cols) (notes_get0 cols)
  have dN_ON := disjoint_of_get0 _ _ 'N' 'O' (by decide) (notes_get0 cols) (otherNotes_get0 cols)
  have dOO_ON : (otherOnlyColumns cols).Disjoint (otherNotesColumns cols) := by
    intro a ha1 ha2
    have hx := ((mem_otherOnlyColumns cols a).mp ha1).2.2
    have hy := ((mem_otherNotesColumns cols a).mp ha2).2
    rw [hx] at hy
    exact Bool.false_ne_true hy
  have n1 : ((["Year", "Date"] : List String) ++ asicColumns cols).Nodup :=
    ndYD.append ndA dYD_A
  have n2 := n1.append ndB (List.disjoint_append_left.mpr ⟨dYD_B, dA_B⟩)
  have n3 := n2.append ndOO (List.disjoint_append_left.mpr
    ⟨List.disjoint_append_left.mpr ⟨dYD_OO, dA_OO⟩, dB_OO⟩)
  have n4 := n3.append ndN (List.disjoint_append_left.mpr
    ⟨List.disjoint_append_left.mpr ⟨List.disjoint_append_left.mpr ⟨dYD_N, dA_N⟩, dB_N⟩, dOO_N⟩)
  have n5 := n4.append ndON (List.disjoint_append_left.mpr
    ⟨List.disjoint_append_left.mpr ⟨List.disjoint_append_left.mpr
      ⟨List.disjoint_append_left.mpr ⟨dYD_ON, dA_ON⟩, dB_ON⟩, dOO_ON⟩, dN_ON⟩)
  have ndOrd : (orderedHeadersPart cols).Nodup := n5
  have dOrd_R : (orderedHeadersPart cols).Disjoint (remainingColumns cols) := by
    intro a ha1 ha2
    exact ((mem_remainingColumns cols a).mp ha2).2 ha1
  refine ⟨ndOrd.append ndR dOrd_R, ?_, rfl,
    List.sorted_insertionSort _ _, mem_asicColumns cols,
    List.sorted_insertionSort _ _, mem_businessColumns cols,
    List.sorted_insertionSort _ _, mem_otherOnlyColumns cols,
    List.sorted_insertionSort _ _, mem_notesColumns cols,
    List.sorted_insertionSort _ _, mem_otherNotesColumns cols,
    List.sorted_insertionSort _ _, mem_remainingColumns cols⟩
  intro k hk
  rw [generate_dynamic_headers, List.mem_append]
  by_cases ho : k ∈ orderedHeadersPart cols
  · exact Or.inl ho
  · exact Or.inr ((mem_remainingColumns cols k).mpr ⟨hk, ho⟩)

/-- Claim C8 witness at a concrete registry. -/
theorem deriveHeaders_nodup_superset_ordered_witness :
    (generate_dynamic_headers ["Year", "Date", "Notes_title", "ASIC_Gazette_title"]).Nodup ∧
    (∀ k ∈ (["Year", "Date", "Notes_title", "ASIC_Gazette_title"] : List String),
      k ∈ generate_dynamic_headers ["Year", "Date", "Notes_title", "ASIC_Gazette_title"]) :=
  ⟨(deriveHeaders_nodup_superset_ordered _ (by decide)).1,
   (deriveHeaders_nodup_superset_ordered _ (by decide)).2.1⟩

/-- Claim C10: per-cell link extraction returns title and url
lists of equal length: both empty when the cell has no links and
no cleaned text, a single pair of the cleaned text with an empty
url when the cell has no links but non-empty cleaned text, and
exactly one pair per link otherwise, the title being the link's
cleaned text (empty when missing) and the url empty when the href
is absent; on an internal extraction error both lists are empty. -/
theorem extractCellLinks_shape (urljoin : String → String → String) (base : String)
    (cell : Cell) :
    (extract_multiple_links_data urljoin base cell).1.length
        = (extract_multiple_links_data urljoin base cell).2.length ∧
    (cell.ok = false → extract_multiple_links_data urljoin base cell = ([], [])) ∧
    (cell.ok = true → cell.links = [] → clean_text cell.text = "" →
      extract_multiple_links_data urljoin base cell = ([], [])) ∧
    (cell.ok = true → cell.links = [] → clean_text cell.text ≠ "" →
      extract_multiple_links_data urljoin base cell = ([clean_text cell.text], [""])) ∧
    (cell.ok = true → cell.links ≠ [] →
      (extract_multiple_links_data urljoin base cell).1.length = cell.links.length ∧
      (∀ i, (hi : i < cell.links.length) →
        (extract_multiple_links_data urljoin base cell).1.get? i
            = some (clean_text (cell.links.get ⟨i, hi⟩).text) ∧
        ((cell.links.get ⟨i, hi⟩).href = none →
          (extract_multiple_links_data urljoin base cell).2.get? i = some ""))) := by
  refine ⟨?_, ?_, ?_, ?_, ?_⟩
  · rw [extract_multiple_links_data]
    split
    · split
      · dsimp only
        split <;> rfl
      · dsimp only
        rw [List.length_map, List.length_map]
    · rfl
  · intro hok
    rw [extract_multiple_links_data, if_neg (by simp [hok])]
  · intro hok hl ht
    rw [extract_multiple_links_data, if_pos hok, if_pos hl, if_neg (by simp [ht])]
  · intro hok hl ht
    rw [extract_multiple_links_data, if_pos hok, if_pos hl, if_pos ht]
  · intro hok hl
    rw [extract_multiple_links_data, if_pos hok, if_neg hl]
    refine ⟨by dsimp only; rw [List.length_map], ?_⟩
    intro i hi
    constructor
    · rw [List.get?_map, List.get?_eq_get hi]
      rfl
    · intro hhref
      have hh2 : cell.links[i].href = none := hhref
      rw [List.get?_map, List.get?_eq_get hi]
      simp [hh2]

/-- Claim C10 witness at a concrete two-link cell. -/
theorem extractCellLinks_shape_witness :
    (extract_multiple_links_data (fun b u => b ++ u) "https://asic.gov.au"
        ⟨[⟨"15/123", some "/gaz/123"⟩, ⟨"", none⟩], "x", true⟩).1.length
      = (extract_multiple_links_data (fun b u => b ++ u) "https://asic.gov.au"
        ⟨[⟨"15/123", some "/gaz/123"⟩, ⟨"", none⟩], "x", true⟩).2.length ∧
    (extract_multiple_links_data (fun b u => b ++ u) "https://asic.gov.au"
        ⟨[⟨"15/123", some "/gaz/123"⟩, ⟨"", none⟩], "x", true⟩).2.get? 1 = some "" := by
  have h := extractCellLinks_shape (fun b u => b ++ u) "https://asic.gov.au"
    ⟨[⟨"15/123", some "/gaz/123"⟩, ⟨"", none⟩], "x", true⟩
  exact ⟨h.1, ((h.2.2.2.2 rfl (by decide)).2 1 (by decide)).2 rfl⟩

theorem extract_lengths (urljoin : String → String → String) (base : String)
    (cell : Cell) :
    (extract_multiple_links_data urljoin base cell).1.length
      = (extract_multiple_links_data urljoin base cell).2.length := by
  rw [extract_multiple_links_data]
  split
  · split
    · dsimp only
      split <;> rfl
    · dsimp only
      rw [List.length_map, List.length_map]
  · rfl

/-- The text-overrides-first-title rule cannot produce an empty
title list unless the url list is empty too. -/
theorem override_empty (ntext : String) (ts us : List String)
    (hlen : ts.length = us.length) :
    ((if ntext ≠ "" ∧ ts = [] then [ntext]
      else if ntext ≠ "" ∧ ts ≠ [] then ntext :: ts.tail
      else ts) = [] → us = []) := by
  split
  · intro h2
    exact absurd h2 (List.cons_ne_nil _ _)
  · split
    · intro h2
      exact absurd h2 (List.cons_ne_nil _ _)
    · intro h2
      rw [h2] at hlen
      exact List.length_eq_zero.mp hlen.symm

theorem key_fresh_len (k p : String) (h : k.data.length < p.data.length) :
    ∀ s, k ≠ p ++ s :=
  fun s => ne_append_of_length_lt k p s h

theorem key_fresh_head (k p : String) (c d : Char) (hk : k.data.get? 0 = some c)
    (hp : p.data.get? 0 = some d) (hcd : c ≠ d) : ∀ s, k ≠ p ++ s :=
  fun s => ne_append_of_head_ne k p s c d hk hp hcd

theorem extract_fst_nil (urljoin : String → String → String) (base : String)
    (cell : Cell) :
    (extract_multiple_links_data urljoin base cell).1 = [] →
    (extract_multiple_links_data urljoin base cell).2 = [] := by
  intro h
  have h2 := extract_lengths urljoin base cell
  rw [h] at h2
  exact List.length_eq_zero.mp h2.symm

theorem extract_row_data_four (urljoin : String → String → String) (base : String)
    (cols : List String) (year : String) (c0 c1 c2 c3 : Cell) :
    extract_row_data urljoin base cols [c0, c1, c2, c3] year
      = (some (store_cell_data (row_prefix_state urljoin base cols year c0 c1 c2).1
            (row_prefix_state urljoin base cols year c0 c1 c2).2 "Other_Notes"
            (if clean_text c3.text ≠ "" ∧ (extract_multiple_links_data urljoin base c3).1 = []
             then [clean_text c3.text]
             else if clean_text c3.text ≠ "" ∧ (extract_multiple_links_data urljoin base c3).1 ≠ []
             then clean_text c3.text :: (extract_multiple_links_data urljoin base c3).1.tail
             else (extract_multiple_links_data urljoin base c3).1)
            (extract_multiple_links_data urljoin base c3).2).1,
         (store_cell_data (row_prefix_state urljoin base cols year c0 c1 c2).1
            (row_prefix_state urljoin base cols year c0 c1 c2).2 "Other_Notes"
            (if clean_text c3.text ≠ "" ∧ (extract_multiple_links_data urljoin base c3).1 = []
             then [clean_text c3.text]
             else if clean_text c3.text ≠ "" ∧ (extract_multiple_links_data urljoin base c3).1 ≠ []
             then clean_text c3.text :: (extract_multiple_links_data urljoin base c3).1.tail
             else (extract_multiple_links_data urljoin base c3).1)
            (extract_multiple_links_data urljoin base c3).2).2) := rfl

theorem extract_row_data_five (urljoin : String → String → String) (base : String)
    (cols : List String) (year : String) (c0 c1 c2 c3 c4 : Cell) (rest2 : List Cell) :
    extract_row_data urljoin base cols (c0 :: c1 :: c2 :: c3 :: c4 :: rest2) year
      = (some (store_cell_data
            (store_cell_data (row_prefix_state urljoin base cols year c0 c1 c2).1
              (row_prefix_state urljoin base cols year c0 c1 c2).2 "Other"
              (if clean_text c3.text ≠ "" ∧ (extract_multiple_links_data urljoin base c3).1 = []
               then [clean_text c3.text]
               else if clean_text c3.text ≠ "" ∧ (extract_multiple_links_data urljoin base c3).1 ≠ []
               then clean_text c3.text :: (extract_multiple_links_data urljoin base c3).1.tail
               else (extract_multiple_links_data urljoin base c3).1)
              (extract_multiple_links_data urljoin base c3).2).1
            (store_cell_data (row_prefix_state urljoin base cols year c0 c1 c2).1
              (row_prefix_state urljoin base cols year c0 c1 c2).2 "Other"
              (if clean_text c3.text ≠ "" ∧ (extract_multiple_links_data urljoin base c3).1 = []
               then [clean_text c3.text]
               else if clean_text c3.text ≠ "" ∧ (extract_multiple_links_data urljoin base c3).1 ≠ []
               then clean_text c3.text :: (extract_multiple_links_data urljoin base c3).1.tail
               else (extract_multiple_links_data urljoin base c3).1)
              (extract_multiple_links_data urljoin base c3).2).2
            "Notes"
            (if clean_text c4.text ≠ "" ∧ (extract_multiple_links_data urljoin base c4).1 = []
             then [clean_text c4.text]
             else if clean_text c4.text ≠ "" ∧ (extract_multiple_links_data urljoin base c4).1 ≠ []
             then clean_text c4.text :: (extract_multiple_links_data urljoin base c4).1.tail
             else (extract_multiple_links_data urljoin base c4).1)
            (extract_multiple_links_data urljoin base c4).2).1,
         (store_cell_data
            (store_cell_data (row_prefix_state urljoin base cols year c0 c1 c2).1
              (row_prefix_state urljoin base cols year c0 c1 c2).2 "Other"
              (if clean_text c3.text ≠ "" ∧ (extract_multiple_links_data urljoin base c3).1 = []
               then [clean_text c3.text]
               else if clean_text c3.text ≠ "" ∧ (extract_multiple_links_data urljoin base c3).1 ≠ []
               then clean_text c3.text :: (extract_multiple_links_data urljoin base c3).1.tail
               else (extract_multiple_links_data urljoin base c3).1)
              (extract_multiple_links_data urljoin base c3).2).1
            (store_cell_data (row_prefix_state urljoin base cols year c0 c1 c2).1
              (row_prefix_state urljoin base cols year c0 c1 c2).2 "Other"
              (if clean_text c3.text ≠ "" ∧ (extract_multiple_links_data urljoin base c3).1 = []
               then [clean_text c3.text]
               else if clean_text c3.text ≠ "" ∧ (extract_multiple_links_data urljoin base c3).1 ≠ []
               then clean_text c3.text :: (extract_multiple_links_data urljoin base c3).1.tail
               else (extract_multiple_links_data urljoin base c3).1)
              (extract_multiple_links_data urljoin base c3).2).2
            "Notes"
            (if clean_text c4.text ≠ "" ∧ (extract_multiple_links_data urljoin base c4).1 = []
             then [clean_text c4.text]
             else if clean_text c4.text ≠ "" ∧ (extract_multiple_links_data urljoin base c4).1 ≠ []
             then clean_text c4.text :: (extract_multiple_links_data urljoin base c4).1.tail
             else (extract_multiple_links_data urljoin base c4).1)
            (extract_multiple_links_data urljoin base c4).2).2) := rfl

theorem row_prefix_get_year (urljoin : String → String → String) (base : String)
    (cols : List String) (year : String) (c0 c1 c2 : Cell) :
    dget (row_prefix_state urljoin base cols year c0 c1 c2).1 "Year" = some year := by
  rw [row_prefix_state]
  rw [store_cell_data_get_other _ _ "Business_Gazette" _ _ "Year"
      (key_fresh_len "Year" "Business_Gazette" (by decide)),
    store_cell_data_get_other _ _ "ASIC_Gazette" _ _ "Year"
      (key_fresh_len "Year" "ASIC_Gazette" (by decide))]
  simp [dget]

theorem row_prefix_get_date (urljoin : String → String → String) (base : String)
    (cols : List String) (year : String) (c0 c1 c2 : Cell) :
    dget (row_prefix_state urljoin base cols year c0 c1 c2).1 "Date"
      = some (clean_text c0.text) := by
  rw [row_prefix_state]
  rw [store_cell_data_get_other _ _ "Business_Gazette" _ _ "Date"
      (key_fresh_len "Date" "Business_Gazette" (by decide)),
    store_cell_data_get_other _ _ "ASIC_Gazette" _ _ "Date"
      (key_fresh_len "Date" "ASIC_Gazette" (by decide))]
  simp [dget]

theorem row_prefix_asic_base (urljoin : String → String → String) (base : String)
    (cols : List String) (year : String) (c0 c1 c2 : Cell) :
    (dget (row_prefix_state urljoin base cols year c0 c1 c2).1 "ASIC_Gazette_title").isSome
        = true ∧
    (dget (row_prefix_state urljoin base cols year c0 c1 c2).1 "ASIC_Gazette_url").isSome
        = true := by
  rw [row_prefix_state]
  constructor
  · rw [store_cell_data_get_other _ _ "Business_Gazette" _ _ "ASIC_Gazette_title"
        (key_fresh_head "ASIC_Gazette_title" "Business_Gazette" 'A' 'B'
          (by decide) (by decide) (by decide))]
    rw [show ("ASIC_Gazette_title" : String) = "ASIC_Gazette" ++ "_title" from by decide]
    rw [(store_cell_data_get_base _ _ "ASIC_Gazette" _ _
      (extract_fst_nil urljoin base c1)).1]
    rfl
  · rw [store_cell_data_get_other _ _ "Business_Gazette" _ _ "ASIC_Gazette_url"
        (key_fresh_head "ASIC_Gazette_url" "Business_Gazette" 'A' 'B'
          (by decide) (by decide) (by decide))]
    rw [show ("ASIC_Gazette_url" : String) = "ASIC_Gazette" ++ "_url" from by decide]
    rw [(store_cell_data_get_base _ _ "ASIC_Gazette" _ _
      (extract_fst_nil urljoin base c1)).2]
    rfl

theorem row_prefix_business_base (urljoin : String → String → String) (base : String)
    (cols : List String) (year : String) (c0 c1 c2 : Cell) :
    (dget (row_prefix_state urljoin base cols year c0 c1 c2).1 "Business_Gazette_title").isSome
        = true ∧
    (dget (row_prefix_state urljoin base cols year c0 c1 c2).1 "Business_Gazette_url").isSome
        = true := by
  rw [row_prefix_state]
  constructor
  · rw [show ("Business_Gazette_title" : String) = "Business_Gazette" ++ "_title" from by decide]
    rw [(store_cell_data_get_base _ _ "Business_Gazette" _ _
      (extract_fst_nil urljoin base c2)).1]
    rfl
  · rw [show ("Business_Gazette_url" : String) = "Business_Gazette" ++ "_url" from by decide]
    rw [(store_cell_data_get_base _ _ "Business_Gazette" _ _
      (extract_fst_nil urljoin base c2)).2]
    rfl

/-- Claim C5: a row with fewer than 4 cells yields no record;
every record produced carries Year mapped to the partition key
and Date mapped to the cleaned text of cell 0, and is complete:
the base columns for both gazette groups are present, together
with the Other Notes pair in the 4-cell layout or the Other and
Notes pairs in the 5-or-more-cell layout. -/
theorem extractRow_skip_and_complete (urljoin : String → String → String)
    (base : String) (cols : List String) (cells : List Cell) (year : String) :
    (cells.length < 4 → (extract_row_data urljoin base cols cells year).1 = none) ∧
    (∀ r, (extract_row_data urljoin base cols cells year).1 = some r →
      dget r "Year" = some year ∧
      (∃ c0, cells.get? 0 = some c0 ∧ dget r "Date" = some (clean_text c0.text)) ∧
      (dget r "ASIC_Gazette_title").isSome = true ∧
      (dget r "ASIC_Gazette_url").isSome = true ∧
      (dget r "Business_Gazette_title").isSome = true ∧
      (dget r "Business_Gazette_url").isSome = true ∧
      (cells.length = 4 →
        (dget r "Other_Notes_title").isSome = true ∧
        (dget r "Other_Notes_url").isSome = true) ∧
      (5 ≤ cells.length →
        (dget r "Other_title").isSome = true ∧
        (dget r "Other_url").isSome = true ∧
        (dget r "Notes_title").isSome = true ∧
        (dget r "Notes_url").isSome = true)) := by
  rcases cells with _ | ⟨c0, _ | ⟨c1, _ | ⟨c2, _ | ⟨c3, rest⟩⟩⟩⟩
  · exact ⟨fun _ => rfl, fun r hr => by simp [extract_row_data] at hr⟩
  · exact ⟨fun _ => rfl, fun r hr => by simp [extract_row_data] at hr⟩
  · exact ⟨fun _ => rfl, fun r hr => by simp [extract_row_data] at hr⟩
  · exact ⟨fun _ => rfl, fun r hr => by simp [extract_row_data] at hr⟩
  rcases rest with _ | ⟨c4, rest2⟩
  · refine ⟨fun hlen => by simp at hlen, fun r hr => ?_⟩
    rw [extract_row_data_four] at hr
    have hh := Option.some.inj hr
    subst hh
    have hfresh_on := override_empty (clean_text c3.text)
      (extract_multiple_links_data urljoin base c3).1
      (extract_multiple_links_data urljoin base c3).2
      (extract_lengths urljoin base c3)
    refine ⟨?_, ⟨c0, rfl, ?_⟩, ?_, ?_, ?_, ?_, fun _ => ⟨?_, ?_⟩, fun h5 => by simp at h5⟩
    · rw [store_cell_data_get_other _ _ "Other_Notes" _ _ "Year"
        (key_fresh_len "Year" "Other_Notes" (by decide))]
      exact row_prefix_get_year urljoin base cols year c0 c1 c2
    · rw [store_cell_data_get_other _ _ "Other_Notes" _ _ "Date"
        (key_fresh_len "Date" "Other_Notes" (by decide))]
      exact row_prefix_get_date urljoin base cols year c0 c1 c2
    · rw [store_cell_data_get_other _ _ "Other_Notes" _ _ "ASIC_Gazette_title"
        (key_fresh_head "ASIC_Gazette_title" "Other_Notes" 'A' 'O'
          (by decide) (by decide) (by decide))]
      exact (row_prefix_asic_base urljoin base cols year c0 c1 c2).1
    · rw [store_cell_data_get_other _ _ "Other_Notes" _ _ "ASIC_Gazette_url"
        (key_fresh_head "ASIC_Gazette_url" "Other_Notes" 'A' 'O'
          (by decide) (by decide) (by decide))]
      exact (row_prefix_asic_base urljoin base cols year c0 c1 c2).2
    · rw [store_cell_data_get_other _ _ "Other_Notes" _ _ "Business_Gazette_title"
        (key_fresh_head "Business_Gazette_title" "Other_Notes" 'B' 'O'
          (by decide) (by decide) (by decide))]
      exact (row_prefix_business_base urljoin base cols year c0 c1 c2).1
    · rw [store_cell_data_get_other _ _ "Other_Notes" _ _ "Business_Gazette_url"
        (key_fresh_head "Business_Gazette_url" "Other_Notes" 'B' 'O'
          (by decide) (by decide) (by decide))]
      exact (row_prefix_business_base urljoin base cols year c0 c1 c2).2
    · rw [show ("Other_Notes_title" : String) = "Other_Notes" ++ "_title" from by decide]
      rw [(store_cell_data_get_base _ _ "Other_Notes" _ _ hfresh_on).1]
      rfl
    · rw [show ("Other_Notes_url" : String) = "Other_Notes" ++ "_url" from by decide]
      rw [(store_cell_data_get_base _ _ "Other_Notes" _ _ hfresh_on).2]
      rfl
  · refine ⟨fun hlen => by simp at hlen; omega, fun r hr => ?_⟩
    rw [extract_row_data_five] at hr
    have hh := Option.some.inj hr
    subst hh
    have hfresh_o := override_empty (clean_text c3.text)
      (extract_multiple_links_data urljoin base c3).1
      (extract_multiple_links_data urljoin base c3).2
      (extract_lengths urljoin base c3)
    have hfresh_n := override_empty (clean_text c4.text)
      (extract_multiple_links_data urljoin base c4).1
      (extract_multiple_links_data urljoin base c4).2
      (extract_lengths urljoin base c4)
    refine ⟨?_, ⟨c0, rfl, ?_⟩, ?_, ?_, ?_, ?_, fun h4 => by simp at h4,
      fun _ => ⟨?_, ?_, ?_, ?_⟩⟩
    · rw [store_cell_data_get_other _ _ "Notes" _ _ "Year"
        (key_fresh_len "Year" "Notes" (by decide)),
        store_cell_data_get_other _ _ "Other" _ _ "Year"
          (key_fresh_len "Year" "Other" (by decide))]
      exact row_prefix_get_year urljoin base cols year c0 c1 c2
    · rw [store_cell_data_get_other _ _ "Notes" _ _ "Date"
        (key_fresh_len "Date" "Notes" (by decide)),
        store_cell_data_get_other _ _ "Other" _ _ "Date"
          (key_fresh_len "Date" "Other" (by decide))]
      exact row_prefix_get_date urljoin base cols year c0 c1 c2
    · rw [store_cell_data_get_other _ _ "Notes" _ _ "ASIC_Gazette_title"
        (key_fresh_head "ASIC_Gazette_title" "Notes" 'A' 'N' (by decide) (by decide) (by decide)),
        store_cell_data_get_other _ _ "Other" _ _ "ASIC_Gazette_title"
          (key_fresh_head "ASIC_Gazette_title" "Other" 'A' 'O' (by decide) (by decide) (by decide))]
      exact (row_prefix_asic_base urljoin base cols year c0 c1 c2).1
    · rw [store_cell_data_get_other _ _ "Notes" _ _ "ASIC_Gazette_url"
        (key_fresh_head "ASIC_Gazette_url" "Notes" 'A' 'N' (by decide) (by decide) (by decide)),
        store_cell_data_get_other _ _ "Other" _ _ "ASIC_Gazette_url"
          (key_fresh_head "ASIC_Gazette_url" "Other" 'A' 'O' (by decide) (by decide) (by decide))]
      exact (row_prefix_asic_base urljoin base cols year c0 c1 c2).2
    · rw [store_cell_data_get_other _ _ "Notes" _ _ "Business_Gazette_title"
        (key_fresh_head "Business_Gazette_title" "Notes" 'B' 'N'
          (by decide) (by decide) (by decide)),
        store_cell_data_get_other _ _ "Other" _ _ "Business_Gazette_title"
          (key_fresh_head "Business_Gazette_title" "Other" 'B' 'O'
            (by decide) (by decide) (by decide))]
      exact (row_prefix_business_base urljoin base cols year c0 c1 c2).1
    · rw [store_cell_data_get_other _ _ "Notes" _ _ "Business_Gazette_url"
        (key_fresh_head "Business_Gazette_url" "Notes" 'B' 'N'
          (by decide) (by decide) (by decide)),
        store_cell_data_get_other _ _ "Other" _ _ "Business_Gazette_url"
          (key_fresh_head "Business_Gazette_url" "Other" 'B' 'O'
            (by decide) (by decide) (by decide))]
      exact (row_prefix_business_base urljoin base cols year c0 c1 c2).2
    · rw [store_cell_data_get_other _ _ "Notes" _ _ "Other_title"
        (key_fresh_head "Other_title" "Notes" 'O' 'N' (by decide) (by decide) (by decide))]
      rw [show ("Other_title" : String) = "Other" ++ "_title" from by decide]
      rw [(store_cell_data_get_base _ _ "Other" _ _ hfresh_o).1]
      rfl
    · rw [store_cell_data_get_other _ _ "Notes" _ _ "Other_url"
        (key_fresh_head "Other_url" "Notes" 'O' 'N' (by decide) (by decide) (by decide))]
      rw [show ("Other_url" : String) = "Other" ++ "_url" from by decide]
      rw [(store_cell_data_get_base _ _ "Other" _ _ hfresh_o).2]
      rfl
    · rw [show ("Notes_title" : String) = "Notes" ++ "_title" from by decide]
      rw [(store_cell_data_get_base _ _ "Notes" _ _ hfresh_n).1]
      rfl
    · rw [show ("Notes_url" : String) = "Notes" ++ "_url" from by decide]
      rw [(store_cell_data_get_base _ _ "Notes" _ _ hfresh_n).2]
      rfl

/-- Claim C5 witness: a one-cell row yields nothing and a four-cell
row yields a record with the Year and Date keys. -/
theorem extractRow_skip_and_complete_witness :
    (extract_row_data (fun b u => b ++ u) "https://asic.gov.au" []
        [⟨[], "x", true⟩] "2015").1 = none ∧
    (∀ r, (extract_row_data (fun b u => b ++ u) "https://asic.gov.au" []
        [⟨[], "1 March 2015", true⟩, ⟨[], "", true⟩, ⟨[], "", true⟩, ⟨[], "", true⟩]
        "2015").1 = some r → dget r "Year" = some "2015") := by
  constructor
  · exact (extractRow_skip_and_complete (fun b u => b ++ u) "https://asic.gov.au" []
      [⟨[], "x", true⟩] "2015").1 (by decide)
  · intro r hr
    exact ((extractRow_skip_and_complete (fun b u => b ++ u) "https://asic.gov.au" []
      [⟨[], "1 March 2015", true⟩, ⟨[], "", true⟩, ⟨[], "", true⟩, ⟨[], "", true⟩]
      "2015").2 r hr).1

theorem store_pairs_get_keep_bounded (pfx : String) :
    ∀ (ps : List (String × String)) (i : Nat) (r : Record) (cols : List String)
      (key : String),
      (∀ j, i ≤ j → j < i + ps.length → key ≠ tkey pfx j ∧ key ≠ ukey pfx j) →
      dget (store_pairs pfx i r cols ps).1 key = dget r key := by
  intro ps
  induction ps with
  | nil => intro i r cols key _; rfl
  | cons p rest ih =>
    intro i r cols key hk
    rw [store_pairs, ih _ _ _ _ (fun j hj1 hj2 => hk j (by omega) (by simp; omega))]
    have h0 := hk i (le_refl i) (by simp)
    rw [dget_dictInsert, if_neg h0.2, dget_dictInsert, if_neg h0.1]

theorem store_rest_urls_get_keep_bounded (pfx : String) :
    ∀ (us : List String) (i : Nat) (r : Record) (cols : List String) (key : String),
      (∀ j, i ≤ j → j < i + us.length → key ≠ pfx ++ ("_url_" ++ natStr (j + 1))) →
      dget (store_rest_urls pfx i r cols us).1 key = dget r key := by
  intro us
  induction us with
  | nil => intro i r cols key _; rfl
  | cons u rest ih =>
    intro i r cols key hk
    rw [store_rest_urls, ih _ _ _ _ (fun j hj1 hj2 => hk j (by omega) (by simp; omega))]
    rw [dget_dictInsert, if_neg (hk i (le_refl i) (by simp))]

/-- Keys outside the column family actually written by one store
call are untouched, with bounds on the positions written. -/
theorem store_cell_data_get_bounded (r : Record) (cols : List String) (pfx : String)
    (ts us : List String) (key : String)
    (h1 : ∀ j, j < ts.length → key ≠ tkey pfx j ∧ key ≠ ukey pfx j)
    (h2 : ∀ j, j < max ts.length us.length → key ≠ pfx ++ ("_url_" ++ natStr (j + 1)))
    (h3 : key ≠ pfx ++ "_title") (h4 : key ≠ pfx ++ "_url") :
    dget (store_cell_data r cols pfx ts us).1 key = dget r key := by
  rw [store_cell_data]
  split
  · rw [dget_dictInsert, if_neg h4, dget_dictInsert, if_neg h3]
  · dsimp only
    have hlen2 : (us ++ List.replicate (ts.length - us.length) "").length
        = max ts.length us.length := by
      simp only [List.length_append, List.length_replicate]
      omega
    rw [store_rest_urls_get_keep_bounded pfx _ _ _ _ _ (fun j hj1 hj2 => by
      refine h2 j ?_
      rw [List.length_drop, hlen2] at hj2
      omega)]
    rw [store_pairs_get_keep_bounded pfx _ _ _ _ _ (fun j hj1 hj2 => by
      refine h1 j ?_
      rw [List.length_zip] at hj2
      omega)]

theorem store_pairs_congr (pfx : String) :
    ∀ (ps : List (String × String)) (i : Nat) (r1 r2 : Record)
      (cols1 cols2 : List String) (bigK : String),
      (∀ k, k ≠ bigK → dget r1 k = dget r2 k) →
      ∀ k, k ≠ bigK →
        dget (store_pairs pfx i r1 cols1 ps).1 k
          = dget (store_pairs pfx i r2 cols2 ps).1 k := by
  intro ps
  induction ps with
  | nil => intro i r1 r2 cols1 cols2 bigK hinv k hk; exact hinv k hk
  | cons p rest ih =>
    intro i r1 r2 cols1 cols2 bigK hinv k hk
    rw [store_pairs, store_pairs]
    refine ih _ _ _ _ _ _ ?_ k hk
    intro k2 hk2
    rw [dget_dictInsert, dget_dictInsert, dget_dictInsert, dget_dictInsert]
    by_cases ha : k2 = ukey pfx i
    · rw [if_pos ha, if_pos ha]
    · rw [if_neg ha, if_neg ha]
      by_cases hb : k2 = tkey pfx i
      · rw [if_pos hb, if_pos hb]
      · rw [if_neg hb, if_neg hb]
        exact hinv k2 hk2

theorem store_rest_urls_congr (pfx : String) :
    ∀ (us : List String) (i : Nat) (r1 r2 : Record)
      (cols1 cols2 : List String) (bigK : String),
      (∀ k, k ≠ bigK → dget r1 k = dget r2 k) →
      ∀ k, k ≠ bigK →
        dget (store_rest_urls pfx i r1 cols1 us).1 k
          = dget (store_rest_urls pfx i r2 cols2 us).1 k := by
  intro us
  induction us with
  | nil => intro i r1 r2 cols1 cols2 bigK hinv k hk; exact hinv k hk
  | cons u rest ih =>
    intro i r1 r2 cols1 cols2 bigK hinv k hk
    rw [store_rest_urls, store_rest_urls]
    refine ih _ _ _ _ _ _ ?_ k hk
    intro k2 hk2
    rw [dget_dictInsert, dget_dictInsert]
    by_cases ha : k2 = pfx ++ ("_url_" ++ natStr (i + 1))
    · rw [if_pos ha, if_pos ha]
    · rw [if_neg ha, if_neg ha]
      exact hinv k2 hk2

/-- Replacing only the first title of a non-empty group changes
the stored record at the base title column alone. -/
theorem store_cell_data_congr_first_title (r : Record) (cols : List String)
    (pfx : String) (text t0 : String) (tl us : List String) :
    ∀ k, k ≠ pfx ++ "_title" →
      dget (store_cell_data r cols pfx (text :: tl) us).1 k
        = dget (store_cell_data r cols pfx (t0 :: tl) us).1 k := by
  intro k hk
  have hc1 : ¬ ((text :: tl : List String) = [] ∧ us = []) := by
    intro hc
    exact List.cons_ne_nil _ _ hc.1
  have hc2 : ¬ ((t0 :: tl : List String) = [] ∧ us = []) := by
    intro hc
    exact List.cons_ne_nil _ _ hc.1
  rw [store_cell_data, if_neg hc1, store_cell_data, if_neg hc2]
  dsimp only
  rw [show (text :: tl : List String).length = tl.length + 1 from rfl,
      show (t0 :: tl : List String).length = tl.length + 1 from rfl]
  cases us with
  | nil =>
    rw [show ([] : List String) ++ List.replicate (tl.length + 1 - List.length []) ""
        = "" :: List.replicate tl.length "" from by simp [List.replicate]]
    rw [show (text :: tl).zip ("" :: List.replicate tl.length "")
        = (text, "") :: tl.zip (List.replicate tl.length "") from rfl,
        show (t0 :: tl).zip ("" :: List.replicate tl.length "")
        = (t0, "") :: tl.zip (List.replicate tl.length "") from rfl]
    rw [store_pairs, store_pairs]
    refine store_rest_urls_congr pfx _ _ _ _ _ _ _ (fun k2 hk2 =>
      store_pairs_congr pfx _ _ _ _ _ _ _ (fun k3 hk3 => ?_) k2 hk2) k hk
    rw [dget_dictInsert, dget_dictInsert, dget_dictInsert, dget_dictInsert]
    by_cases ha : k3 = ukey pfx 0
    · rw [if_pos ha, if_pos ha]
    · rw [if_neg ha, if_neg ha]
      rw [if_neg (by rw [tkey]; exact hk3), if_neg (by rw [tkey]; exact hk3)]
  | cons u0 urest =>
    rw [show (u0 :: urest : List String) ++ List.replicate (tl.length + 1 - (u0 :: urest).length) ""
        = u0 :: (urest ++ List.replicate (tl.length + 1 - (u0 :: urest).length) "") from by simp]
    rw [show (text :: tl).zip (u0 :: (urest ++ List.replicate (tl.length + 1 - (u0 :: urest).length) ""))
        = (text, u0) :: tl.zip (urest ++ List.replicate (tl.length + 1 - (u0 :: urest).length) "") from rfl,
        show (t0 :: tl).zip (u0 :: (urest ++ List.replicate (tl.length + 1 - (u0 :: urest).length) ""))
        = (t0, u0) :: tl.zip (urest ++ List.replicate (tl.length + 1 - (u0 :: urest).length) "") from rfl]
    rw [store_pairs, store_pairs]
    refine store_rest_urls_congr pfx _ _ _ _ _ _ _ (fun k2 hk2 =>
      store_pairs_congr pfx _ _ _ _ _ _ _ (fun k3 hk3 => ?_) k2 hk2) k hk
    rw [dget_dictInsert, dget_dictInsert, dget_dictInsert, dget_dictInsert]
    by_cases ha : k3 = ukey pfx 0
    · rw [if_pos ha, if_pos ha]
    · rw [if_neg ha, if_neg ha]
      rw [if_neg (by rw [tkey]; exact hk3), if_neg (by rw [tkey]; exact hk3)]

/-- The text-overrides-first-title rule at one store: when the
cell's text is non-empty and no links were found, the text becomes
the sole title with empty url and no second title column appears;
when links were found, the text replaces the first title only and
every other column is stored as it would have been without the
override. -/
theorem override_store_facts (prevR : Record) (prevC : List String) (pfx : String)
    (ts us : List String) (text : String) (hlen : ts.length = us.length) :
    (text ≠ "" → ts = [] →
      dget (store_cell_data prevR prevC pfx
          (if text ≠ "" ∧ ts = [] then [text]
           else if text ≠ "" ∧ ts ≠ [] then text :: ts.tail else ts) us).1
          (pfx ++ "_title") = some text ∧
      dget (store_cell_data prevR prevC pfx
          (if text ≠ "" ∧ ts = [] then [text]
           else if text ≠ "" ∧ ts ≠ [] then text :: ts.tail else ts) us).1
          (pfx ++ "_url") = some "" ∧
      (dget prevR (pfx ++ ("_title_" ++ natStr 2)) = none →
        dget (store_cell_data prevR prevC pfx
            (if text ≠ "" ∧ ts = [] then [text]
             else if text ≠ "" ∧ ts ≠ [] then text :: ts.tail else ts) us).1
            (pfx ++ ("_title_" ++ natStr 2)) = none)) ∧
    (text ≠ "" → ts ≠ [] →
      dget (store_cell_data prevR prevC pfx
          (if text ≠ "" ∧ ts = [] then [text]
           else if text ≠ "" ∧ ts ≠ [] then text :: ts.tail else ts) us).1
          (pfx ++ "_title") = some text ∧
      ∀ k, k ≠ pfx ++ "_title" →
        dget (store_cell_data prevR prevC pfx
            (if text ≠ "" ∧ ts = [] then [text]
             else if text ≠ "" ∧ ts ≠ [] then text :: ts.tail else ts) us).1 k
          = dget (store_cell_data prevR prevC pfx ts us).1 k) := by
  constructor
  · intro ht hl
    rw [if_pos ⟨ht, hl⟩]
    have hus : us = [] := by
      rw [hl] at hlen
      exact List.length_eq_zero.mp hlen.symm
    subst hus
    refine ⟨?_, ?_, ?_⟩
    · rw [(store_cell_data_get_base prevR prevC pfx [text] [] (fun _ => rfl)).1]
      rfl
    · rw [(store_cell_data_get_base prevR prevC pfx [text] [] (fun _ => rfl)).2]
      rfl
    · intro hprev
      rw [store_cell_data_get_bounded prevR prevC pfx [text] [] _ ?_ ?_ ?_ ?_]
      · exact hprev
      · intro j hj
        simp only [List.length_singleton] at hj
        have hj0 : j = 0 := by omega
        subst hj0
        constructor
        · rw [show tkey pfx 0 = pfx ++ "_title" from rfl]
          intro he
          have := str_append_left_cancel pfx _ _ he
          rw [natStr_two] at this
          exact absurd this (by decide)
        · rw [show ukey pfx 0 = pfx ++ "_url" from rfl]
          intro he
          have := str_append_left_cancel pfx _ _ he
          rw [natStr_two] at this
          exact absurd this (by decide)
      · intro j hj
        simp only [List.length_singleton, List.length_nil] at hj
        have hj0 : j = 0 := by omega
        subst hj0
        intro he
        have := str_append_left_cancel pfx _ _ he
        rw [natStr_two, natStr_one] at this
        exact absurd this (by decide)
      · intro he
        have := str_append_left_cancel pfx _ _ he
        rw [natStr_two] at this
        exact absurd this (by decide)
      · intro he
        have := str_append_left_cancel pfx _ _ he
        rw [natStr_two] at this
        exact absurd this (by decide)
  · intro ht hnl
    cases hts : ts with
    | nil => exact absurd hts hnl
    | cons t0 tl =>
      subst hts
      rw [if_neg (fun hc => List.cons_ne_nil _ _ hc.2),
          if_pos ⟨ht, List.cons_ne_nil t0 tl⟩, List.tail_cons]
      refine ⟨?_, ?_⟩
      · rw [(store_cell_data_get_base prevR prevC pfx (text :: tl) us
          (fun h2 => absurd h2 (List.cons_ne_nil _ _))).1]
        rfl
      · intro k hk
        exact store_cell_data_congr_first_title prevR prevC pfx text t0 tl us k hk

theorem row_prefix_get_none (urljoin : String → String → String) (base : String)
    (cols : List String) (year : String) (c0 c1 c2 : Cell) (key : String)
    (h1 : ∀ s, key ≠ "ASIC_Gazette" ++ s) (h2 : ∀ s, key ≠ "Business_Gazette" ++ s)
    (h3 : key ≠ "Year") (h4 : key ≠ "Date") :
    dget (row_prefix_state urljoin base cols year c0 c1 c2).1 key = none := by
  rw [row_prefix_state]
  rw [store_cell_data_get_other _ _ "Business_Gazette" _ _ key h2,
      store_cell_data_get_other _ _ "ASIC_Gazette" _ _ key h1]
  rw [dget, if_neg (fun he => h3 he.symm), dget, if_neg (fun he => h4 he.symm)]
  rfl

/-- Claim C6: for the Other and Notes cells, when the cleaned
cell text is non-empty and the extracted link group is empty the
text becomes the sole title with empty url; when the text is
non-empty and the group is non-empty the text replaces the first
title only, and every column other than the base title column is
stored exactly as it would have been without the override. -/
theorem textOverride_rule (urljoin : String → String → String) (base : String)
    (cols : List String) (year : String) (c0 c1 c2 c3 c4 : Cell) :
    (∀ r, (extract_row_data urljoin base cols [c0, c1, c2, c3] year).1 = some r →
      (clean_text c3.text ≠ "" → (extract_multiple_links_data urljoin base c3).1 = [] →
        dget r "Other_Notes_title" = some (clean_text c3.text) ∧
        dget r "Other_Notes_url" = some "" ∧
        dget r "Other_Notes_title_2" = none) ∧
      (clean_text c3.text ≠ "" → (extract_multiple_links_data urljoin base c3).1 ≠ [] →
        dget r "Other_Notes_title" = some (clean_text c3.text) ∧
        (∀ k, k ≠ "Other_Notes_title" →
          dget r k = dget (store_cell_data
            (row_prefix_state urljoin base cols year c0 c1 c2).1
            (row_prefix_state urljoin base cols year c0 c1 c2).2 "Other_Notes"
            (extract_multiple_links_data urljoin base c3).1
            (extract_multiple_links_data urljoin base c3).2).1 k))) ∧
    (∀ r, (extract_row_data urljoin base cols [c0, c1, c2, c3, c4] year).1 = some r →
      (clean_text c3.text ≠ "" → (extract_multiple_links_data urljoin base c3).1 = [] →
        dget r "Other_title" = some (clean_text c3.text) ∧
        dget r "Other_url" = some "") ∧
      (clean_text c3.text ≠ "" → (extract_multiple_links_data urljoin base c3).1 ≠ [] →
        dget r "Other_title" = some (clean_text c3.text) ∧
        (∀ k, k ≠ "Other_title" →
          dget (store_cell_data (row_prefix_state urljoin base cols year c0 c1 c2).1
            (row_prefix_state urljoin base cols year c0 c1 c2).2 "Other"
            (if clean_text c3.text ≠ "" ∧ (extract_multiple_links_data urljoin base c3).1 = []
             then [clean_text c3.text]
             else if clean_text c3.text ≠ "" ∧ (extract_multiple_links_data urljoin base c3).1 ≠ []
             then clean_text c3.text :: (extract_multiple_links_data urljoin base c3).1.tail
             else (extract_multiple_links_data urljoin base c3).1)
            (extract_multiple_links_data urljoin base c3).2).1 k
          = dget (store_cell_data (row_prefix_state urljoin base cols year c0 c1 c2).1
              (row_prefix_state urljoin base cols year c0 c1 c2).2 "Other"
              (extract_multiple_links_data urljoin base c3).1
              (extract_multiple_links_data urljoin base c3).2).1 k)) ∧
      (clean_text c4.text ≠ "" → (extract_multiple_links_data urljoin base c4).1 = [] →
        dget r "Notes_title" = some (clean_text c4.text) ∧
        dget r "Notes_url" = some "") ∧
      (clean_text c4.text ≠ "" → (extract_multiple_links_data urljoin base c4).1 ≠ [] →
        dget r "Notes_title" = some (clean_text c4.text) ∧
        (∀ k, k ≠ "Notes_title" →
          dget r k = dget (store_cell_data
            (store_cell_data (row_prefix_state urljoin base cols year c0 c1 c2).1
              (row_prefix_state urljoin base cols year c0 c1 c2).2 "Other"
              (if clean_text c3.text ≠ "" ∧ (extract_multiple_links_data urljoin base c3).1 = []
               then [clean_text c3.text]
               else if clean_text c3.text ≠ "" ∧ (extract_multiple_links_data urljoin base c3).1 ≠ []
               then clean_text c3.text :: (extract_multiple_links_data urljoin base c3).1.tail
               else (extract_multiple_links_data urljoin base c3).1)
              (extract_multiple_links_data urljoin base c3).2).1
            (store_cell_data (row_prefix_state urljoin base cols year c0 c1 c2).1
              (row_prefix_state urljoin base cols year c0 c1 c2).2 "Other"
              (if clean_text c3.text ≠ "" ∧ (extract_multiple_links_data urljoin base c3).1 = []
               then [clean_text c3.text]
               else if clean_text c3.text ≠ "" ∧ (extract_multiple_links_data urljoin base c3).1 ≠ []
               then clean_text c3.text :: (extract_multiple_links_data urljoin base c3).1.tail
               else (extract_multiple_links_data urljoin base c3).1)
              (extract_multiple_links_data urljoin base c3).2).2
            "Notes"
            (extract_multiple_links_data urljoin base c4).1
            (extract_multiple_links_data urljoin base c4).2).1 k))) := by
  constructor
  · intro r hr
    rw [extract_row_data_four] at hr
    have hh := Option.some.inj hr
    subst hh
    have hfacts := override_store_facts
      (row_prefix_state urljoin base cols year c0 c1 c2).1
      (row_prefix_state urljoin base cols year c0 c1 c2).2 "Other_Notes"
      (extract_multiple_links_data urljoin base c3).1
      (extract_multiple_links_data urljoin base c3).2
      (clean_text c3.text) (extract_lengths urljoin base c3)
    constructor
    · intro ht hl
      obtain ⟨ha, hb, hc⟩ := hfacts.1 ht hl
      refine ⟨?_, ?_, ?_⟩
      · rw [show ("Other_Notes_title" : String) = "Other_Notes" ++ "_title" from by decide]
        exact ha
      · rw [show ("Other_Notes_url" : String) = "Other_Notes" ++ "_url" from by decide]
        exact hb
      · rw [show ("Other_Notes_title_2" : String)
            = "Other_Notes" ++ ("_title_" ++ natStr 2) from by decide]
        refine hc ?_
        refine row_prefix_get_none urljoin base cols year c0 c1 c2 _
          (key_fresh_head _ "ASIC_Gazette" 'O' 'A' (by decide) (by decide) (by decide))
          (key_fresh_head _ "Business_Gazette" 'O' 'B' (by decide) (by decide) (by decide))
          (by decide) (by decide)
    · intro ht hnl
      obtain ⟨ha, hb⟩ := hfacts.2 ht hnl
      refine ⟨?_, ?_⟩
      · rw [show ("Other_Notes_title" : String) = "Other_Notes" ++ "_title" from by decide]
        exact ha
      · intro k hk
        refine hb k ?_
        rw [show ("Other_Notes" : String) ++ "_title" = "Other_Notes_title" from by decide]
        exact hk
  · intro r hr
    rw [extract_row_data_five] at hr
    have hh := Option.some.inj hr
    subst hh
    have hfactsO := override_store_facts
      (row_prefix_state urljoin base cols year c0 c1 c2).1
      (row_prefix_state urljoin base cols year c0 c1 c2).2 "Other"
      (extract_multiple_links_data urljoin base c3).1
      (extract_multiple_links_data urljoin base c3).2
      (clean_text c3.text) (extract_lengths urljoin base c3)
    refine ⟨?_, ?_, ?_, ?_⟩
    · intro ht hl
      obtain ⟨ha, hb, _⟩ := hfactsO.1 ht hl
      constructor
      · rw [store_cell_data_get_other _ _ "Notes" _ _ "Other_title"
          (key_fresh_head "Other_title" "Notes" 'O' 'N' (by decide) (by decide) (by decide))]
        rw [show ("Other_title" : String) = "Other" ++ "_title" from by decide]
        exact ha
      · rw [store_cell_data_get_other _ _ "Notes" _ _ "Other_url"
          (key_fresh_head "Other_url" "Notes" 'O' 'N' (by decide) (by decide) (by decide))]
        rw [show ("Other_url" : String) = "Other" ++ "_url" from by decide]
        exact hb
    · intro ht hnl
      obtain ⟨ha, hb⟩ := hfactsO.2 ht hnl
      constructor
      · rw [store_cell_data_get_other _ _ "Notes" _ _ "Other_title"
          (key_fresh_head "Other_title" "Notes" 'O' 'N' (by decide) (by decide) (by decide))]
        rw [show ("Other_title" : String) = "Other" ++ "_title" from by decide]
        exact ha
      · intro k hk
        refine hb k ?_
        rw [show ("Other" : String) ++ "_title" = "Other_title" from by decide]
        exact hk
    · intro ht hl
      have hfactsN := override_store_facts
        (store_cell_data (row_prefix_state urljoin base cols year c0 c1 c2).1
          (row_prefix_state urljoin base cols year c0 c1 c2).2 "Other"
          (if clean_text c3.text ≠ "" ∧ (extract_multiple_links_data urljoin base c3).1 = []
           then [clean_text c3.text]
           else if clean_text c3.text ≠ "" ∧ (extract_multiple_links_data urljoin base c3).1 ≠ []
           then clean_text c3.text :: (extract_multiple_links_data urljoin base c3).1.tail
           else (extract_multiple_links_data urljoin base c3).1)
          (extract_multiple_links_data urljoin base c3).2).1
        (store_cell_data (row_prefix_state urljoin base cols year c0 c1 c2).1
          (row_prefix_state urljoin base cols year c0 c1 c2).2 "Other"
          (if clean_text c3.text ≠ "" ∧ (extract_multiple_links_data urljoin base c3).1 = []
           then [clean_text c3.text]
           else if clean_text c3.text ≠ "" ∧ (extract_multiple_links_data urljoin base c3).1 ≠ []
           then clean_text c3.text :: (extract_multiple_links_data urljoin base c3).1.tail
           else (extract_multiple_links_data urljoin base c3).1)
          (extract_multiple_links_data urljoin base c3).2).2
        "Notes"
        (extract_multiple_links_data urljoin base c4).1
        (extract_multiple_links_data urljoin base c4).2
        (clean_text c4.text) (extract_lengths urljoin base c4)
      obtain ⟨ha, hb, _⟩ := hfactsN.1 ht hl
      constructor
      · rw [show ("Notes_title" : String) = "Notes" ++ "_title" from by decide]
        exact ha
      · rw [show ("Notes_url" : String) = "Notes" ++ "_url" from by decide]
        exact hb
    · intro ht hnl
      have hfactsN := override_store_facts
        (store_cell_data (row_prefix_state urljoin base cols year c0 c1 c2).1
          (row_prefix_state urljoin base cols year c0 c1 c2).2 "Other"
          (if clean_text c3.text ≠ "" ∧ (extract_multiple_links_data urljoin base c3).1 = []
           then [clean_text c3.text]
           else if clean_text c3.text ≠ "" ∧ (extract_multiple_links_data urljoin base c3).1 ≠ []
           then clean_text c3.text :: (extract_multiple_links_data urljoin base c3).1.tail
           else (extract_multiple_links_data urljoin base c3).1)
          (extract_multiple_links_data urljoin base c3).2).1
        (store_cell_data (row_prefix_state urljoin base cols year c0 c1 c2).1
          (row_prefix_state urljoin base cols year c0 c1 c2).2 "Other"
          (if clean_text c3.text ≠ "" ∧ (extract_multiple_links_data urljoin base c3).1 = []
           then [clean_text c3.text]
           else if clean_text c3.text ≠ "" ∧ (extract_multiple_links_data urljoin base c3).1 ≠ []
           then clean_text c3.text :: (extract_multiple_links_data urljoin base c3).1.tail
           else (extract_multiple_links_data urljoin base c3).1)
          (extract_multiple_links_data urljoin base c3).2).2
        "Notes"
        (extract_multiple_links_data urljoin base c4).1
        (extract_multiple_links_data urljoin base c4).2
        (clean_text c4.text) (extract_lengths urljoin base c4)
      obtain ⟨ha, hb⟩ := hfactsN.2 ht hnl
      constructor
      · rw [show ("Notes_title" : String) = "Notes" ++ "_title" from by decide]
        exact ha
      · intro k hk
        refine hb k ?_
        rw [show ("Notes" : String) ++ "_title" = "Notes_title" from by decide]
        exact hk

/-- Claim C6 witness: a notes cell whose link query fails but
whose text is present yields the text as sole title, and a notes
cell with one link and fuller text gets the text in place of the
link's label. -/
theorem textOverride_rule_witness :
    dget ((extract_row_data (fun b u => b ++ u) "https://asic.gov.au" []
        [⟨[], "1 March 2015", true⟩, ⟨[], "", true⟩, ⟨[], "", true⟩,
         ⟨[], "Note", false⟩] "2015").1.getD []) "Other_Notes_title" = some "Note" ∧
    dget ((extract_row_data (fun b u => b ++ u) "https://asic.gov.au" []
        [⟨[], "1 March 2015", true⟩, ⟨[], "", true⟩, ⟨[], "", true⟩,
         ⟨[⟨"see doc", some "/doc/5"⟩], "Correction notice", true⟩] "2015").1.getD [])
      "Other_Notes_title" = some "Correction notice" := by
  constructor
  · have h := ((textOverride_rule (fun b u => b ++ u) "https://asic.gov.au" [] "2015"
      ⟨[], "1 March 2015", true⟩ ⟨[], "", true⟩ ⟨[], "", true⟩ ⟨[], "Note", false⟩
      ⟨[], "", true⟩).1 _ rfl).1 (by decide) (by decide)
    exact h.1.trans (by decide)
  · have h := ((textOverride_rule (fun b u => b ++ u) "https://asic.gov.au" [] "2015"
      ⟨[], "1 March 2015", true⟩ ⟨[], "", true⟩ ⟨[], "", true⟩
      ⟨[⟨"see doc", some "/doc/5"⟩], "Correction notice", true⟩
      ⟨[], "", true⟩).1 _ rfl).2 (by decide) (by decide)
    exact h.1.trans (by decide)

theorem strContains_ne_empty (s : String) (c : Char)
    (h : strContains s c = true) : s ≠ "" := by
  intro he
  subst he
  simp [strContains] at h

theorem strContains_of_endsWith (s suffix : String)
    (h : strEndsWith s ("/" ++ suffix) = true) : strContains s '/' = true := by
  rw [strEndsWith] at h
  have hsuf := List.isSuffixOf_iff_suffix.mp h
  rcases hsuf with ⟨t, ht⟩
  rw [strContains]
  have hmem : '/' ∈ s.data := by
    rw [← ht]
    refine List.mem_append.mpr (Or.inr ?_)
    rw [String.data_append]
    exact List.mem_append.mpr (Or.inl (by decide))
  simpa using hmem

theorem count_link_step (suffix : String) (acc : Nat × Nat) (l : Link) :
    count_link suffix acc l =
      (acc.1 + (if strEndsWith (clean_text l.text) ("/" ++ suffix) = true then 1 else 0),
       acc.2 + (if strContains (clean_text l.text) '/' = true then 1 else 0)) := by
  rw [count_link]
  by_cases hc : strContains (clean_text l.text) '/' = true
  · rw [if_pos ⟨strContains_ne_empty _ _ hc, hc⟩, if_pos hc]
    by_cases hm : strEndsWith (clean_text l.text) ("/" ++ suffix) = true
    · rw [if_pos hm, if_pos hm]
    · rw [if_neg hm, if_neg hm]
      simp
  · have hm : ¬ strEndsWith (clean_text l.text) ("/" ++ suffix) = true := by
      intro hm2
      exact hc (strContains_of_endsWith _ _ hm2)
    rw [if_neg (fun hcc => hc hcc.2), if_neg hm, if_neg hc]
    simp

theorem foldl_count_link (suffix : String) :
    ∀ (ls : List Link) (acc : Nat × Nat),
      ls.foldl (count_link suffix) acc =
        (acc.1 + (ls.map (fun l => clean_text l.text)).countP
            (fun s => strEndsWith s ("/" ++ suffix)),
         acc.2 + (ls.map (fun l => clean_text l.text)).countP
            (fun s => strContains s '/')) := by
  intro ls
  induction ls with
  | nil => intro acc; simp
  | cons l rest ih =>
    intro acc
    rw [List.foldl_cons, ih, count_link_step]
    simp only [List.map_cons, List.countP_cons, Prod.mk.injEq]
    constructor <;> · split <;> omega

theorem scan_row_spec (suffix : String) (r : RRow) (acc : Nat × Nat)
    (hok : ∀ c ∈ r.cells, c.ok = true) :
    scan_row suffix acc r
      = some (acc.1 + (specRowLinks r).countP (fun s => strEndsWith s ("/" ++ suffix)),
              acc.2 + (specRowLinks r).countP (fun s => strContains s '/')) := by
  obtain ⟨hth, cells⟩ := r
  rcases cells with _ | ⟨c0, _ | ⟨c1, _ | ⟨c2, rest⟩⟩⟩
  · simp [scan_row, specRowLinks]
  · simp [scan_row, specRowLinks]
  · have hok1 : c1.ok = true := hok c1 (by simp)
    rw [scan_row, specRowLinks, scan_cell, if_pos hok1, foldl_count_link]
    simp
  · have hok1 : c1.ok = true := hok c1 (by simp)
    have hok2 : c2.ok = true := hok c2 (by simp)
    rw [scan_row, specRowLinks, scan_cell, if_pos hok1, foldl_count_link]
    simp only [Option.some_bind]
    rw [scan_cell, if_pos hok2, foldl_count_link]
    simp only [List.countP_append, Option.some.injEq, Prod.mk.injEq]
    constructor <;> omega

theorem scan_rows_fold (suffix : String) :
    ∀ (rows : List RRow) (acc : Nat × Nat),
      (∀ r ∈ rows, ∀ c ∈ r.cells, c.ok = true) →
      List.foldlM (scan_row suffix) acc rows
        = some (acc.1 + ((rows.map specRowLinks).join).countP
              (fun s => strEndsWith s ("/" ++ suffix)),
            acc.2 + ((rows.map specRowLinks).join).countP
              (fun s => strContains s '/')) := by
  intro rows
  induction rows with
  | nil => intro acc _; simp
  | cons r rest ih =>
    intro acc hok
    rw [List.foldlM_cons, scan_row_spec suffix r acc (hok r (by simp))]
    simp only [bind, Option.some_bind]
    rw [ih _ (fun r2 hr2 => hok r2 (by simp [hr2]))]
    simp only [List.map_cons, List.join, List.flatten_cons, List.countP_append,
      Option.some.injEq, Prod.mk.injEq]
    constructor <;> omega

theorem score_table_spec (suffix : String) (t : Table) (hok : TableOk t) :
    score_table suffix t = some (specMatched suffix t, specTotal t) := by
  rw [score_table, scan_rows_fold suffix _ _ ?_]
  · rw [specMatched, specTotal, specLinks]
    simp
  · intro r hr c hc
    exact hok r (List.mem_of_mem_filter (List.mem_of_mem_take hr)) c hc

theorem qualifiesB_iff (m tot : Nat) :
    qualifiesB m tot = true ↔ ((7 : ℚ) / 10 < (m : ℚ) / (tot : ℚ) ∧ 5 < tot) := by
  rw [qualifiesB]
  rw [decide_eq_true_eq]
  constructor
  · rintro ⟨h1, h2⟩
    refine ⟨?_, h2⟩
    rw [if_pos (by omega : tot > 0)] at h1
    rw [gt_iff_lt] at h1
    linarith
  · rintro ⟨h1, h2⟩
    refine ⟨?_, h2⟩
    rw [if_pos (by omega : tot > 0), gt_iff_lt]
    linarith

theorem table_qualifies_iff (suffix : String) (t : Table) (hok : TableOk t) :
    table_qualifies suffix t = true ↔ specQualifies suffix t := by
  rw [table_qualifies, score_table_spec suffix t hok]
  rw [qualifiesB_iff, specQualifies]

theorem specQualifies_iff_nat (suffix : String) (t : Table) :
    specQualifies suffix t ↔
      (7 * specTotal t < 10 * specMatched suffix t ∧ 5 < specTotal t) := by
  rw [specQualifies]
  constructor
  · rintro ⟨h1, h2⟩
    refine ⟨?_, h2⟩
    have hpos : (0 : ℚ) < (specTotal t : ℚ) := by
      exact_mod_cast (by omega : 0 < specTotal t)
    rw [div_lt_div_iff (by norm_num) hpos] at h1
    have h3 : (7 : ℚ) * specTotal t < specMatched suffix t * 10 := h1
    have h4 : 7 * specTotal t < specMatched suffix t * 10 := by exact_mod_cast h3
    omega
  · rintro ⟨h1, h2⟩
    refine ⟨?_, h2⟩
    have hpos : (0 : ℚ) < (specTotal t : ℚ) := by
      exact_mod_cast (by omega : 0 < specTotal t)
    rw [div_lt_div_iff (by norm_num) hpos]
    have h3 : 7 * specTotal t < specMatched suffix t * 10 := by omega
    exact_mod_cast h3

theorem findIdx?_first_aux {α : Type} (p : α → Bool) :
    ∀ (l : List α) (s i : Nat) (hi : i < l.length),
      p (l.get ⟨i, hi⟩) = true →
      (∀ j (hj : j < l.length), j < i → p (l.get ⟨j, hj⟩) = false) →
      l.findIdx? p s = some (s + i) := by
  intro l
  induction l with
  | nil => intro s i hi; simp at hi
  | cons a tl ih =>
    intro s i hi hp hfirst
    cases i with
    | zero =>
      rw [List.findIdx?_cons, if_pos (show p a = true from hp)]
      rw [Nat.add_zero]
    | succ i2 =>
      have hpa : p a = false := hfirst 0 (by simp) (by omega)
      rw [List.findIdx?_cons, if_neg (by simp [hpa])]
      rw [ih (s + 1) i2 (by simpa using hi) hp
        (fun j hj hji => hfirst (j + 1) (by simpa using hj) (by omega))]
      congr 1
      omega

theorem findIdx?_first {α : Type} (p : α → Bool) (l : List α) (i : Nat)
    (hi : i < l.length) (hp : p (l.get ⟨i, hi⟩) = true)
    (hfirst : ∀ j (hj : j < l.length), j < i → p (l.get ⟨j, hj⟩) = false) :
    l.findIdx? p = some i := by
  have h := findIdx?_first_aux p l 0 i hi hp hfirst
  rwa [Nat.zero_add] at h

/-- Claim C1: for every sequence of candidate tables, all free of
transient read failures, and every partition key, the resolver
returns the first visible candidate, in supplied order, whose
score qualifies: more than 5 links counted over at most the first
10 non-header rows in the cell at index 1 (and index 2 when a row
has at least 3 cells) whose cleaned text contains a slash, with
those ending in a slash and the key's last two characters forming
a fraction of the total exceeding 0.70. -/
theorem resolver_first_qualifying (tables : List Table) (year : String)
    (hok : ∀ t ∈ tables, TableOk t) (i : Nat)
    (hi : i < (visible_tables tables).length)
    (hq : specQualifies (strTakeRight year 2) ((visible_tables tables).get ⟨i, hi⟩))
    (hfirst : ∀ j (hj : j < (visible_tables tables).length), j < i →
      ¬ specQualifies (strTakeRight year 2) ((visible_tables tables).get ⟨j, hj⟩)) :
    find_correct_table_for_year tables year = some i := by
  have hokv : ∀ t ∈ visible_tables tables, TableOk t := fun t ht =>
    hok t (List.mem_of_mem_filter ht)
  have hfind : (visible_tables tables).findIdx? (table_qualifies (strTakeRight year 2))
      = some i := by
    refine findIdx?_first _ _ i hi ?_ ?_
    · rw [table_qualifies_iff _ _ (hokv _ (List.get_mem _ _ _))]
      exact hq
    · intro j hj hji
      rw [Bool.eq_false_iff]
      intro htq
      exact hfirst j hj hji
        ((table_qualifies_iff _ _ (hokv _ (List.get_mem _ _ _))).mp htq)
  rw [find_correct_table_for_year, hfind]

/-- Claim C1 witness: a single visible table with seven matching
links qualifies and is selected at index 0. -/
theorem resolver_first_qualifying_witness :
    find_correct_table_for_year
      [⟨true, [⟨false, [⟨[], "", true⟩,
        ⟨[⟨"1/20", none⟩, ⟨"2/20", none⟩, ⟨"3/20", none⟩, ⟨"4/20", none⟩,
          ⟨"5/20", none⟩, ⟨"6/20", none⟩, ⟨"7/20", none⟩], "", true⟩]⟩]⟩]
      "2020" = some 0 := by
  refine resolver_first_qualifying _ "2020" ?_ 0 (by decide) ?_ ?_
  · intro t ht
    simp only [List.mem_cons, List.not_mem_nil, or_false] at ht
    subst ht
    intro r hr
    simp only [List.mem_cons, List.not_mem_nil, or_false] at hr
    subst hr
    decide
  · rw [specQualifies_iff_nat]
    decide
  · intro j hj hji
    exact absurd hji (by omega)

/-- Claim C2: when no visible candidate qualifies, the resolver
consults the fixed ordinal fallback map: a mapped index in range
is returned, an out-of-range index or an unmapped key yields no
table; the key 2018 maps to ordinal 3. -/
theorem resolver_fallback (tables : List Table) (year : String)
    (hok : ∀ t ∈ tables, TableOk t)
    (hnone : ∀ j (hj : j < (visible_tables tables).length),
      ¬ specQualifies (strTakeRight year 2) ((visible_tables tables).get ⟨j, hj⟩)) :
    (∀ i, year_to_table_index year = some i →
      (i < (visible_tables tables).length →
        find_correct_table_for_year tables year = some i) ∧
      (¬ i < (visible_tables tables).length →
        find_correct_table_for_year tables year = none)) ∧
    (year_to_table_index year = none → find_correct_table_for_year tables year = none) ∧
    year_to_table_index "2018" = some 3 := by
  have hokv : ∀ t ∈ visible_tables tables, TableOk t := fun t ht =>
    hok t (List.mem_of_mem_filter ht)
  have hfind : (visible_tables tables).findIdx? (table_qualifies (strTakeRight year 2))
      = none := by
    rw [List.findIdx?_eq_none_iff]
    intro x hx
    rcases List.mem_iff_get.mp hx with ⟨⟨j, hj⟩, rfl⟩
    rw [Bool.eq_false_iff]
    intro htq
    exact hnone j hj ((table_qualifies_iff _ _ (hokv _ (List.get_mem _ _ _))).mp htq)
  have hresolve : find_correct_table_for_year tables year
      = (match year_to_table_index year with
         | some i => if i < (visible_tables tables).length then some i else none
         | none => none) := by
    rw [find_correct_table_for_year, hfind]
  refine ⟨?_, ?_, by decide⟩
  · intro i hyi
    rw [hresolve, hyi]
    exact ⟨fun hlt => if_pos hlt, fun hge => if_neg hge⟩
  · intro hyn
    rw [hresolve, hyn]

/-- Claim C2 witness: five visible tables, none qualifying, and
the partition key 2018: the table at ordinal 3 is returned. -/
theorem resolver_fallback_witness :
    find_correct_table_for_year (List.replicate 5 ⟨true, []⟩) "2018" = some 3 := by
  have hnq : ∀ (j : Nat) (hj : j < (visible_tables (List.replicate 5 ⟨true, []⟩)).length),
      ¬ specQualifies (strTakeRight "2018" 2)
        ((visible_tables (List.replicate 5 ⟨true, []⟩)).get ⟨j, hj⟩) := by
    intro j hj hq
    have hv : visible_tables (List.replicate 5 ⟨true, []⟩)
        = List.replicate 5 ⟨true, []⟩ := by decide
    rw [specQualifies_iff_nat] at hq
    have hget : (visible_tables (List.replicate 5 ⟨true, []⟩)).get ⟨j, hj⟩
        = (⟨true, []⟩ : Table) := by
      rw [List.get_of_eq hv]
      exact List.get_replicate _ _
    rw [hget] at hq
    exact absurd hq (by decide)
  have hok : ∀ t ∈ List.replicate 5 (⟨true, []⟩ : Table), TableOk t := by
    intro t ht
    have := List.eq_of_mem_replicate ht
    subst this
    intro r hr
    simp at hr
  exact ((resolver_fallback (List.replicate 5 ⟨true, []⟩) "2018" hok hnq).1 3 rfl).1
    (by decide)
